import Mathlib

/-!
Verification of the conversational agent in `agent_executor.py`, `tools.py` and
`tictactoe_tool.py`: a shallow embedding of the transcript data model, the
context compactor (`_compact_tool_sequences`, `_trim_conversation_history`,
`_summarize_messages`, `_estimate_message_tokens`), the orchestration loop
(`AnthropicModel.chat`, `AgentBeatsPracticeAgent.invoke`), the tool dispatcher
(`execute_tool`), the base64 tools, and the game-state classifier
(`determine_game_status`, `has_winning_combination`, `is_board_full`).
-/

namespace AgentBeats

/-! ## Transcript data model

A message is a Python dict `{'role': ..., 'content': ...}` where content is
either a plain string or a list of typed blocks (text / image / tool_use /
tool_result), exactly the shapes constructed in `agent_executor.py`. -/

inductive Role where
  | user
  | assistant
  | system
deriving DecidableEq

inductive Block where
  | text (text : String)
  | image (media_type : String) (data : String)
  | toolUse (id : String) (name : String) (input : String)
  | toolResult (tool_use_id : String) (content : String)
deriving DecidableEq

inductive Content where
  | str (s : String)
  | blocks (bs : List Block)
deriving DecidableEq

structure Msg where
  role : Role
  content : Content
deriving DecidableEq

structure Image where
  media_type : String
  data : String
deriving DecidableEq

/-- `self.max_context_messages = 20` in `AnthropicModel.__init__`. -/
def max_context_messages : Nat := 20

/-- `self.max_tokens_estimate = 150000` in `AnthropicModel.__init__`. -/
def max_tokens_estimate : Nat := 150000

/-- `max_iterations = 15` in `AnthropicModel.chat`. -/
def max_iterations : Nat := 15

/-- The system prompt string set in `AnthropicModel.__init__`; only its
length (via `len(self.system_prompt) // 4`) enters the trimming logic. -/
def system_prompt : String :=
  "You are a helpful AI assistant with tools for math, hashing (MD5/SHA512), base64 encoding/decoding, Python code execution, conversation history access, image analysis, and tic-tac-toe gaming.\n\nTOOLS USAGE:\n- Math: Solve step by step, provide numerical answers\n- Hashing/Encoding: Chain operations when needed (e.g., encode then hash)\n- Code: Use execute_code for complex calculations, algorithms, pri" ++
  "me numbers, sequences\n- History: When users ask about previous conversations, use get_recent_client_inputs(k=2 or k=3) ONCE to get recent entries, then directly answer from that data. DO NOT make multiple history calls.\n- Images: Analyze, identify objects/text/scenes, perform OCR when needed\n- Tic-Tac-Toe: Play strategically to win games and extract 14-digit winning numbers\n\nTIC-TAC-TOE GAMING:\n- " ++
  "Game board is a 2D array: [[row0], [row1], [row2]] where each cell can be 'x', 'o', or '' (empty)\n- Cell positions are numbered 0-8 in this layout: 0|1|2, 3|4|5, 6|7|8\n- ALWAYS use getCurrGameStatus after every move to check the current board state and game status\n- You are 'X' (goes first), computer is 'O'\n- Game status can be: 'win', 'lose', or 'still playing'\n- When you win, immediately use get" ++
  "WinningNumber to extract the 14-digit code\n\nTIC-TAC-TOE STRATEGY (PRIORITY ORDER - ALWAYS FOLLOW THIS SEQUENCE):\n1. 🏆 IMMEDIATE WIN: If you can complete 3 X's in a line (row/column/diagonal), DO IT NOW\n2. 🚨 BLOCK THREAT: If computer can win next turn (2 O's + empty), BLOCK IT NOW  \n3. 🎯 CREATE FORK: Try to create multiple winning threats (two ways to win)\n4. 🛡️ BLOCK FORK: If computer can create a" ++
  " fork, block it\n5. 🎯 CENTER: Take center (position 4) if available - strongest position\n6. 🏗️ OPPOSITE CORNER: If computer has a corner, take the opposite corner\n7. 🏗️ EMPTY CORNER: Take any corner (0,2,6,8) - second strongest positions  \n8. 🏗️ SIDE: Take any side (1,3,5,7) - weakest positions, use as last resort\n\nDECISION MAKING:\n- ALWAYS check the board analysis in getCurrGameStatus output\n- Loo" ++
  "k for \"WIN OPPORTUNITIES\" and \"BLOCK THREATS\" hints\n- If you see WIN OPPORTUNITIES: [5], immediately press cell 5  \n- If you see BLOCK THREATS: [2], immediately press cell 2\n- Never make random moves - always have a strategic reason\n- Think one move ahead: \"If I play here, what can the computer do?\"\n\nCRITICAL: TIC-TAC-TOE WINNING NUMBER RETURN:\n- After successfully extracting a winning number (14-" ++
  "digit code), you MUST return it as your final response\n- Format: \"🏆 Victory! Winning number: [14-digit-code]\"\n- Example: \"🏆 Victory! Winning number: 20250902104856\"\n- ALWAYS use close_tictactoe_browser after getting the winning number, then provide the final response\n- This 14-digit number is the primary goal and must be returned to the user\n\nHISTORY RETRIEVAL EFFICIENCY:\n- For memory questions: U" ++
  "se get_recent_client_inputs(k=3) ONCE, find the answer in the results, state it directly\n- DO NOT call get_recent_client_inputs multiple times - one call with k=2 or k=3 is sufficient\n- If you can't find the answer in the first retrieval, tell the user it's not in recent history\n\nBe concise and efficient. Avoid unnecessary tool calls."

/-! ## `_estimate_message_tokens` -/

/-- `AnthropicModel._estimate_message_tokens`: 1 token per 4 characters of
text, 1000 per image, 50 per tool_use, `len(str(content)) // 4` per
tool_result. -/
def estimate_message_tokens (m : Msg) : Nat :=
  match m.content with
  | .str s => s.length / 4
  | .blocks bs =>
      (bs.map (fun b =>
        match b with
        | .text t => t.length / 4
        | .image _ _ => 1000
        | .toolUse _ _ _ => 50
        | .toolResult _ c => c.length / 4)).sum

/-- Total estimate used by `_trim_conversation_history`: the sum over all
messages plus `len(self.system_prompt) // 4`. -/
def total_estimated_tokens (messages : List Msg) : Nat :=
  (messages.map estimate_message_tokens).sum + system_prompt.length / 4

/-! ## `_summarize_messages` -/

/-- Python `content[:100] + ('...' if len(content) > 100 else '')`. -/
def truncateWithDots (s : String) (n : Nat) : String :=
  s.take n ++ (if s.length > n then "..." else "")

/-- The `tool_counts` dict built in `_summarize_messages`: a Python dict
preserves first-insertion order, modelled as an association list. -/
def bumpToolCount : List (String × Nat) → String → List (String × Nat)
  | [], t => [(t, 1)]
  | (s, c) :: rest, t =>
      if s = t then (s, c + 1) :: rest else (s, c) :: bumpToolCount rest t

/-- `AnthropicModel._summarize_messages`. -/
def summarize_messages (messages : List Msg) : String :=
  if messages = [] then "[No messages to summarize]"
  else
    let user_queries : List String := messages.filterMap (fun m =>
      match m.role, m.content with
      | .user, .str c =>
          if ¬ c.startsWith "[" then some (truncateWithDots c 100) else none
      | _, _ => none)
    let tool_calls : List String := (messages.filterMap (fun m =>
      match m.role, m.content with
      | .assistant, .blocks bs =>
          some (bs.filterMap (fun b =>
            match b with
            | .toolUse _ n _ => some n
            | _ => none))
      | _, _ => none)).flatten
    let key_results : List String := (messages.filterMap (fun m =>
      match m.role, m.content with
      | .assistant, .blocks bs =>
          some (bs.filterMap (fun b =>
            match b with
            | .text t => if t.length > 20 then some (truncateWithDots t 80) else none
            | _ => none))
      | _, _ => none)).flatten
    let summary_parts : List String :=
      (if user_queries ≠ [] then
        ["User asked about: " ++ String.intercalate "; " (user_queries.take 3)]
       else []) ++
      (if tool_calls ≠ [] then
        let tool_counts := tool_calls.foldl bumpToolCount []
        ["Tools used: " ++ String.intercalate ", "
          (tool_counts.map (fun p => p.1 ++ "(" ++ toString p.2 ++ ")"))]
       else []) ++
      (if key_results ≠ [] ∧ tool_calls = [] then
        ["Responses: " ++ String.intercalate "; " (key_results.take 2)]
       else [])
    if summary_parts ≠ [] then
      "[SUMMARY: " ++ String.intercalate " | " summary_parts ++ "]"
    else "[Previous conversation - no key details]"

/-! ## `_trim_conversation_history` -/

/-- `AnthropicModel._trim_conversation_history`: keep everything when the
transcript has at most 3 messages or is within the token/message budget;
otherwise keep the first user message plus the most recent messages, and
insert a summary message when more than 5 messages were dropped. -/
def trim_conversation_history (messages : List Msg) : List Msg :=
  if messages.length ≤ 3 then messages
  else
    let total_tokens := total_estimated_tokens messages
    if total_tokens ≤ max_tokens_estimate ∧ messages.length ≤ max_context_messages then
      messages
    else
      let first_user_msg : Option Msg :=
        match messages.head? with
        | some m => if m.role = .user then some m else none
        | none => none
      let recent_messages : List Msg :=
        match first_user_msg with
        | some _ => messages.drop (messages.length - (max_context_messages - 1))
        | none => messages.drop (messages.length - max_context_messages)
      let trimmed_messages : List Msg :=
        match first_user_msg with
        | some fm => if fm ∉ recent_messages then fm :: recent_messages else recent_messages
        | none => recent_messages
      if messages.length - trimmed_messages.length > 5 then
        let removed_messages := messages.take (messages.length - trimmed_messages.length)
        let summary_msg : Msg := ⟨.user, .str (summarize_messages removed_messages)⟩
        if trimmed_messages.length > 3 then
          trimmed_messages.take (trimmed_messages.length - 3) ++
            summary_msg :: trimmed_messages.drop (trimmed_messages.length - 3)
        else summary_msg :: trimmed_messages
      else trimmed_messages

/-! ## `_compact_tool_sequences` -/

/-- Whether a message is an assistant message whose (list) content contains at
least one `tool_use` block — the first half of the pair test in
`_compact_tool_sequences`. -/
def isToolUseAssistant (m : Msg) : Bool :=
  m.role = Role.assistant &&
    (match m.content with
     | .blocks bs => bs.any (fun b => match b with | .toolUse _ _ _ => true | _ => false)
     | .str _ => false)

/-- Whether a message is a user message whose (list) content contains at
least one `tool_result` block — the second half of the pair test. -/
def isToolResultUser (m : Msg) : Bool :=
  m.role = Role.user &&
    (match m.content with
     | .blocks bs => bs.any (fun b => match b with | .toolResult _ _ => true | _ => false)
     | .str _ => false)

/-- The adjacent-pair condition checked at index `i` of the scan (minus the
`i < len(messages) - 2` positional part, which the recursion encodes). -/
def isPairStart (m1 m2 : Msg) : Bool :=
  isToolUseAssistant m1 && isToolResultUser m2

/-- `total_result_length`: the summed `len(str(block.get('content', '')))`
over the `tool_result` blocks of a message. -/
def total_result_length (m : Msg) : Nat :=
  match m.content with
  | .blocks bs =>
      (bs.map (fun b => match b with | .toolResult _ c => c.length | _ => 0)).sum
  | .str _ => 0

/-- The synthetic replacement message
`{"role": "user", "content": "[Tool calls executed: ... - results processed]"}`. -/
def compactSummaryMsg (m : Msg) : Msg :=
  let tool_names : List String :=
    match m.content with
    | .blocks bs => bs.filterMap (fun b =>
        match b with | .toolUse _ n _ => some n | _ => none)
    | .str _ => []
  ⟨.user, .str ("[Tool calls executed: " ++ String.intercalate ", " tool_names ++
    " - results processed]")⟩

/-- The `while i < len(messages)` scan of `_compact_tool_sequences`.  The
`i < len(messages) - 2` guard holds exactly when at least three messages
remain from position `i`, which the three-element pattern encodes. -/
def compactScan : List Msg → List Msg
  | m1 :: m2 :: m3 :: rest =>
      if isPairStart m1 m2 && decide (total_result_length m2 < 500) then
        compactSummaryMsg m1 :: compactScan (m3 :: rest)
      else
        m1 :: compactScan (m2 :: m3 :: rest)
  | ms => ms

/-- `AnthropicModel._compact_tool_sequences`: transcripts with fewer than 4
messages are returned unchanged, otherwise the left-to-right scan runs. -/
def compact_tool_sequences (messages : List Msg) : List Msg :=
  if messages.length < 4 then messages else compactScan messages

/-! ## The orchestration loop (`AnthropicModel.chat`)

The remote model is an oracle mapping the (compacted) transcript to either an
exception (`.error`) or a response: an ordered list of content blocks, each a
text block or a tool_use block.  Tool execution is a further oracle
`exec : name → input → result string` (claim C7 studies the concrete
dispatcher).  The `while iteration < max_iterations` loop is embedded as
structural recursion on the remaining iteration budget. -/

inductive RespBlock where
  | text (s : String)
  | toolUse (id : String) (name : String) (input : String)
deriving DecidableEq

/-- A model client: the transcript sent with `self.client.messages.create`
determines the response; `.error e` models the call raising an exception
whose `str` is `e`. -/
def ModelClient : Type := List Msg → Except String (List RespBlock)

/-- `any(block.type == "tool_use" for block in response.content)`. -/
def hasToolCalls (rs : List RespBlock) : Bool :=
  rs.any (fun b => match b with | .toolUse _ _ _ => true | _ => false)

/-- The `final_text` accumulation: concatenate the `text` of every text
block, in response order. -/
def finalTextOf (rs : List RespBlock) : String :=
  rs.foldl (fun acc b => match b with | .text s => acc ++ s | _ => acc) ""

/-- The default whitespace set of Python `str.strip()`: the code points
whitespace for `Py_UNICODE_ISSPACE` — tab through carriage return, the
file/group/record/unit separators 0x1C-0x1F, space, NEL (0x85), NBSP (0xA0),
OGHAM SPACE MARK (0x1680), the EN QUAD..HAIR SPACE range (0x2000-0x200A),
LINE and PARAGRAPH SEPARATOR (0x2028, 0x2029), NARROW NO-BREAK SPACE
(0x202F), MEDIUM MATHEMATICAL SPACE (0x205F) and IDEOGRAPHIC SPACE
(0x3000). -/
def isPyWhitespace (c : Char) : Bool :=
  (9 ≤ c.toNat && c.toNat ≤ 13) || (28 ≤ c.toNat && c.toNat ≤ 32) ||
  c.toNat = 133 || c.toNat = 160 || c.toNat = 5760 ||
  (8192 ≤ c.toNat && c.toNat ≤ 8202) || c.toNat = 8232 || c.toNat = 8233 ||
  c.toNat = 8239 || c.toNat = 8287 || c.toNat = 12288

/-- Python `str.lower()` (ASCII range, which is all the sources compare). -/
def pyToLower (s : String) : String := String.mk (s.toList.map Char.toLower)

/-- Python `str.upper()` (ASCII range). -/
def pyToUpper (s : String) : String := String.mk (s.toList.map Char.toUpper)

/-- Python `str.strip()`: drop whitespace from both ends. -/
def pyStrip (s : String) : String :=
  String.mk (((s.toList.dropWhile isPyWhitespace).reverse.dropWhile isPyWhitespace).reverse)

/-- Fallback used when the final text is empty after stripping. -/
def empty_response_fallback : String :=
  "I apologize, but I couldn\x27t generate a proper response."

/-- Message returned when the loop exhausts `max_iterations`. -/
def iteration_limit_message : String :=
  "I\x27ve completed the available tool calls but reached the maximum iteration limit."

/-- `assistant_message_content`: the response blocks converted back to
transcript blocks, preserving order. -/
def assistantContentOf (rs : List RespBlock) : List Block :=
  rs.map (fun b =>
    match b with
    | .text s => Block.text s
    | .toolUse id n inp => Block.toolUse id n inp)

/-- `tool_results`: one tool_result per tool_use, in response order, with
content produced by `execute_tool`. -/
def toolResultsOf (exec : String → String → String) (rs : List RespBlock) : List Block :=
  rs.filterMap (fun b =>
    match b with
    | .toolUse id n inp => some (Block.toolResult id (exec n inp))
    | .text _ => none)

/-- The transcript extension performed by one tool-call iteration: append the
assistant message, then the user message wrapping the tool results (the
latter only when `tool_results` is non-empty). -/
def appendToolTurn (exec : String → String → String) (rs : List RespBlock)
    (ms : List Msg) : List Msg :=
  let ms2 := ms ++ [⟨.assistant, .blocks (assistantContentOf rs)⟩]
  let results := toolResultsOf exec rs
  if results.isEmpty then ms2 else ms2 ++ [⟨.user, .blocks results⟩]

/-- The terminal answer computed when a response has no tool calls:
`final_text.strip()` if non-empty, else the fallback. -/
def finalAnswerOf (rs : List RespBlock) : String :=
  if pyStrip (finalTextOf rs) ≠ "" then pyStrip (finalTextOf rs) else empty_response_fallback

/-- The `while iteration < max_iterations` loop of `AnthropicModel.chat`,
with the remaining iteration budget as the recursion fuel; returns the final
string together with the number of iterations that ran.  Each iteration
first compacts and trims the transcript, then consults the model; a raised
exception is caught by the surrounding `try`/`except` and converted to a
`"Claude API error: ..."` string. -/
def chatLoop (client : ModelClient) (exec : String → String → String) :
    Nat → List Msg → String × Nat
  | 0, _ => (iteration_limit_message, 0)
  | fuel + 1, ms =>
      let ms1 := trim_conversation_history (compact_tool_sequences ms)
      match client ms1 with
      | .error e => ("Claude API error: " ++ e, 1)
      | .ok rs =>
          if hasToolCalls rs then
            let out := chatLoop client exec fuel (appendToolTurn exec rs ms1)
            (out.1, out.2 + 1)
          else
            (finalAnswerOf rs, 1)

/-- Image injection at the top of `chat`: when `images` is non-empty, the
first user message with string content is converted to structured blocks,
one image block per image appended after the text block. -/
def addImagesToConversation (images : List Image) (conv : List Msg) : List Msg :=
  if images.isEmpty || conv.isEmpty then conv
  else
    match conv.findIdx? (fun m => m.role = Role.user) with
    | none => conv
    | some i =>
        match conv[i]? with
        | some m =>
            match m.content with
            | .str s =>
                conv.set i ⟨m.role, .blocks (Block.text s ::
                  images.map (fun im => Block.image im.media_type im.data))⟩
            | .blocks _ => conv
        | none => conv

/-- `AnthropicModel.chat`: filter out system messages, inject images, run
the loop.  Also returns the number of iterations performed. -/
def chatRun (client : ModelClient) (exec : String → String → String)
    (messages : List Msg) (images : List Image) : String × Nat :=
  let conversation_messages := messages.filter (fun m => m.role ≠ Role.system)
  let conversation_messages := addImagesToConversation images conversation_messages
  chatLoop client exec max_iterations conversation_messages

/-- The string returned by `AnthropicModel.chat`. -/
def chat (client : ModelClient) (exec : String → String → String)
    (messages : List Msg) (images : List Image) : String :=
  (chatRun client exec messages images).1

/-- `AgentBeatsPracticeAgent.invoke`: builds the single-user-message
transcript and calls `chat`; its own `try`/`except` can only convert an
exception from `chat`, and the embedded `chat` already returns a string on
every path. -/
def invoke (client : ModelClient) (exec : String → String → String)
    (user_input : String) (images : List Image) : String :=
  chat client exec [⟨.user, .str user_input⟩] images

/-! ## The tool_use / tool_result pairing invariant (claims C1, C4)

`toolPairingOK` is the invariant of the claim, written from the words of the spec:
every tool_use block of an assistant message has exactly one matching
tool_result block in the immediately following user message, and no
tool_result block lacks its preceding tool_use. -/

/-- The ids of the tool_use blocks of an assistant message (a message of any
other role contributes none: the invariant speaks of assistant messages). -/
def toolUseIds (m : Msg) : List String :=
  match m.role, m.content with
  | .assistant, .blocks bs =>
      bs.filterMap (fun b => match b with | .toolUse id _ _ => some id | _ => none)
  | _, _ => []

/-- The ids referenced by the tool_result blocks of a message. -/
def toolResultIds (m : Msg) : List String :=
  match m.content with
  | .blocks bs =>
      bs.filterMap (fun b => match b with | .toolResult id _ => some id | _ => none)
  | .str _ => []

/-- The invariant between two adjacent messages: each tool_use id of `m1`
matched by exactly one tool_result of `m2` (which must be a user message),
and each tool_result id of `m2` present among the tool_use ids of the
assistant message `m1`. -/
def okAdjacent (m1 m2 : Msg) : Bool :=
  (toolUseIds m1 = [] ||
    (m2.role = Role.user && (toolUseIds m1).all (fun id => (toolResultIds m2).count id = 1)))
  &&
  (toolResultIds m2 = [] ||
    (m1.role = Role.assistant && (toolResultIds m2).all (fun id => (toolUseIds m1).contains id)))

/-- Scan of the invariant along the transcript, `m` being the previous
message: a final message may not carry unanswered tool_use blocks. -/
def pairedFrom : Msg → List Msg → Bool
  | m, [] => toolUseIds m = []
  | m, m2 :: rest => okAdjacent m m2 && pairedFrom m2 rest

/-- The pairing invariant of a whole transcript.  The first message can have
no preceding tool_use, so it may not carry tool_result blocks. -/
def toolPairingOK : List Msg → Bool
  | [] => true
  | m :: rest => toolResultIds m = [] && pairedFrom m rest

/-! ## Absence of compactible pairs (claims C2, C4)

`scanFixed` says the compaction scan finds nothing to replace: no adjacent
(assistant tool_use, user tool_result) pair with short results is followed
by at least one further message. -/

def scanFixed : List Msg → Bool
  | m1 :: m2 :: m3 :: rest =>
      !(isPairStart m1 m2 && decide (total_result_length m2 < 500)) &&
        scanFixed (m2 :: m3 :: rest)
  | _ => true

/-! ## Occurrences of image blocks (claim C5) -/

/-- All image blocks occurring anywhere in a message. -/
def msgImageBlocks (m : Msg) : List Block :=
  match m.content with
  | .blocks bs => bs.filter (fun b => match b with | .image _ _ => true | _ => false)
  | .str _ => []

/-- All image blocks occurring in a transcript, in order. -/
def transcriptImageBlocks (ms : List Msg) : List Block :=
  (ms.map msgImageBlocks).flatten

/-- The image blocks built from the request images by `chat`. -/
def imageBlocksOf (images : List Image) : List Block :=
  images.map (fun im => Block.image im.media_type im.data)

/-- The transcript as it stands at the start of loop iteration `k` of
`AnthropicModel.chat` (iterations counted from 0), for a run started from
`user_input` and `images`, where the response of the model at iteration `k` is
`resp k`.  When a response carries no tool calls the loop stops, so the
transcript is only compacted and trimmed and no turn is appended. -/
def transcriptAt (resp : Nat → List RespBlock) (exec : String → String → String)
    (user_input : String) (images : List Image) : Nat → List Msg
  | 0 => addImagesToConversation images [⟨.user, .str user_input⟩]
  | k + 1 =>
      let ms1 := trim_conversation_history
        (compact_tool_sequences (transcriptAt resp exec user_input images k))
      if hasToolCalls (resp k) then appendToolTurn exec (resp k) ms1 else ms1

/-! ## Game-state classification (`tictactoe_tool.py`)

`determine_game_status(driver, board)` reads two DOM signals (the
`congratulations` element, with its displayed flag and text, and the
`gameStatus` element text; an absent element corresponds to
`NoSuchElementException` / `none`) and then falls back to the board.  Python
`needle in haystack` substring tests are modelled on the character lists. -/

/-- Python `needle in hay` on strings. -/
def strContainsSub (hay needle : String) : Bool :=
  decide (needle.toList <:+: hay.toList)

/-- The DOM signals consulted by `determine_game_status`. -/
structure DomSignals where
  congrats : Option (Bool × String)
  gameStatus : Option String
deriving DecidableEq

/-- `has_winning_combination(board, player)` from `tictactoe_tool.py`: the
player argument is lower-cased, the cells are compared verbatim; rows via
the actual row lists, columns and diagonals via indexing. -/
def has_winning_combination (board : List (List String)) (player : String) : Bool :=
  let p := pyToLower player
  (board.any (fun row => row.all (fun cell => cell = p))) ||
  ((List.range 3).any (fun col =>
    (List.range 3).all (fun row => ((board.getD row []).getD col "") = p))) ||
  ((List.range 3).all (fun i => ((board.getD i []).getD i "") = p)) ||
  ((List.range 3).all (fun i => ((board.getD i []).getD (2 - i) "") = p))

/-- `is_board_full(board)`. -/
def is_board_full (board : List (List String)) : Bool :=
  board.all (fun row => row.all (fun cell => cell ≠ ""))

/-- First check of `determine_game_status`: the `congratulations` element
exists, is displayed, and its lower-cased text contains a win phrase. -/
def congratsSaysWin (dom : DomSignals) : Bool :=
  match dom.congrats with
  | some (displayed, txt) =>
      displayed && (strContainsSub (pyToLower txt) "you won" || strContainsSub (pyToLower txt) "you win")
  | none => false

/-- Second check: the `gameStatus` element text contains a win phrase. -/
def statusSaysWin (dom : DomSignals) : Bool :=
  match dom.gameStatus with
  | some txt => strContainsSub (pyToLower txt) "you won" || strContainsSub (pyToLower txt) "you win"
  | none => false

/-- The `elif` of the second check: a lose phrase in the `gameStatus` text. -/
def statusSaysLose (dom : DomSignals) : Bool :=
  match dom.gameStatus with
  | some txt =>
      strContainsSub (pyToLower txt) "you lost" || strContainsSub (pyToLower txt) "you lose" ||
        strContainsSub (pyToLower txt) "computer wins"
  | none => false

/-- `determine_game_status(driver, board)`, with the DOM reads abstracted
into `dom`.  The final `if is_board_full` branch of the source returns the
same string as the fallthrough and is kept for faithfulness. -/
def determine_game_status (dom : DomSignals) (board : List (List String)) : String :=
  if congratsSaysWin dom then "win"
  else if statusSaysWin dom then "win"
  else if statusSaysLose dom then "lose"
  else if has_winning_combination board "x" then "win"
  else if has_winning_combination board "o" then "lose"
  else if is_board_full board then "still playing"
  else "still playing"

/-! Spec-side formulation for claim C6, written from the words of the claim:
the eight lines of the board listed explicitly, and a case-insensitive
variant of the mark test. -/

/-- The eight winning lines as row/column coordinates. -/
def lineCoords : List (List (Nat × Nat)) :=
  [[(0,0),(0,1),(0,2)], [(1,0),(1,1),(1,2)], [(2,0),(2,1),(2,2)],
   [(0,0),(1,0),(2,0)], [(0,1),(1,1),(2,1)], [(0,2),(1,2),(2,2)],
   [(0,0),(1,1),(2,2)], [(0,2),(1,1),(2,0)]]

/-- Three of the given mark in some row, column or diagonal, marks compared
verbatim. -/
def hasThreeInLine (board : List (List String)) (mark : String) : Bool :=
  lineCoords.any (fun line =>
    line.all (fun rc => ((board.getD rc.1 []).getD rc.2 "") = mark))

/-- Three of the given mark in some line, compared case-insensitively — the
reading of "mark matching is case-insensitive" in claim C6. -/
def hasThreeInLineCI (board : List (List String)) (mark : String) : Bool :=
  lineCoords.any (fun line =>
    line.all (fun rc => pyToLower ((board.getD rc.1 []).getD rc.2 "") = pyToLower mark))

/-- The classification cascade exactly as claim C6 words it, with the board
marks compared verbatim against the lower-case player marks. -/
def classifySpec (dom : DomSignals) (board : List (List String)) : String :=
  if congratsSaysWin dom || statusSaysWin dom then "win"
  else if statusSaysLose dom then "lose"
  else if hasThreeInLine board "x" then "win"
  else if hasThreeInLine board "o" then "lose"
  else "still playing"

/-! ## The base64 tools (`base64_encode`, `base64_decode` in `tools.py`)

`base64_encode(data)` is `base64.b64encode(data.encode('utf-8')).decode('utf-8')`;
`base64_decode(data)` is `base64.b64decode(data).decode('utf-8')` inside a
`try`/`except` that converts any exception into `"Error decoding base64: "`
plus the message.  The library calls are embedded: UTF-8 encoding and strict
UTF-8 decoding of code points, and the RFC 4648 alphabet with the legacy
(non-strict) `binascii.a2b_base64` scanner of CPython, which ignores
characters outside the alphabet, ends at a completed padding sequence and
raises on leftover data characters.  The padding/data-count error texts are
CPython texts, and the UTF-8 decode errors carry the full
`UnicodeDecodeError` message, including the offending byte (for a
single-byte error span) or the byte range, the position and the reason. -/

/-- UTF-8 encoding of one code point (`str.encode('utf-8')`). -/
def utf8EncodeChar (c : Char) : List Nat :=
  let n := c.toNat
  if n < 0x80 then [n]
  else if n < 0x800 then [0xC0 + n / 64, 0x80 + n % 64]
  else if n < 0x10000 then [0xE0 + n / 4096, 0x80 + n / 64 % 64, 0x80 + n % 64]
  else [0xF0 + n / 262144, 0x80 + n / 4096 % 64, 0x80 + n / 64 % 64, 0x80 + n % 64]

/-- UTF-8 encoding of a string, as a byte list. -/
def utf8Encode (cs : List Char) : List Nat :=
  (cs.map utf8EncodeChar).flatten

/-- One step of strict UTF-8 decoding (`bytes.decode('utf-8')`): decode the
code point starting at byte `b`, returning its value and the remaining
bytes; rejects invalid start bytes, truncated sequences, overlong encodings
and surrogates exactly as CPython does.  An error is the reason text of the
`UnicodeDecodeError` together with the length of the error span in bytes:
the continuation bytes are validated left to right, an absent byte gives
"unexpected end of data" and an out-of-range byte gives
"invalid continuation byte", in both cases with the span covering the start
byte and the continuation bytes already validated.  The range checks for
the 0xE0/0xED and 0xF0/0xF4 start bytes are phrased as implications. -/
def utf8DecodeOne (b : Nat) (rest : List Nat) : Except (String × Nat) (Nat × List Nat) :=
  if b < 0x80 then .ok (b, rest)
  else if b < 0xC2 then .error ("invalid start byte", 1)
  else if b < 0xE0 then
    match rest with
    | b2 :: rest2 =>
        if 0x80 ≤ b2 ∧ b2 < 0xC0 then .ok ((b - 0xC0) * 64 + (b2 - 0x80), rest2)
        else .error ("invalid continuation byte", 1)
    | [] => .error ("unexpected end of data", 1)
  else if b < 0xF0 then
    match rest with
    | b2 :: rest2 =>
        if (b = 0xE0 → 0xA0 ≤ b2) ∧ (b = 0xED → b2 < 0xA0) ∧ (0x80 ≤ b2 ∧ b2 < 0xC0) then
          match rest2 with
          | b3 :: rest3 =>
              if 0x80 ≤ b3 ∧ b3 < 0xC0 then
                .ok ((b - 0xE0) * 4096 + (b2 - 0x80) * 64 + (b3 - 0x80), rest3)
              else .error ("invalid continuation byte", 2)
          | [] => .error ("unexpected end of data", 2)
        else .error ("invalid continuation byte", 1)
    | [] => .error ("unexpected end of data", 1)
  else if b < 0xF5 then
    match rest with
    | b2 :: rest2 =>
        if (b = 0xF0 → 0x90 ≤ b2) ∧ (b = 0xF4 → b2 < 0x90) ∧ (0x80 ≤ b2 ∧ b2 < 0xC0) then
          match rest2 with
          | b3 :: rest3 =>
              if 0x80 ≤ b3 ∧ b3 < 0xC0 then
                match rest3 with
                | b4 :: rest4 =>
                    if 0x80 ≤ b4 ∧ b4 < 0xC0 then
                      .ok ((b - 0xF0) * 262144 + (b2 - 0x80) * 4096 + (b3 - 0x80) * 64 +
                        (b4 - 0x80), rest4)
                    else .error ("invalid continuation byte", 3)
                | [] => .error ("unexpected end of data", 3)
              else .error ("invalid continuation byte", 2)
          | [] => .error ("unexpected end of data", 2)
        else .error ("invalid continuation byte", 1)
    | [] => .error ("unexpected end of data", 1)
  else .error ("invalid start byte", 1)

/-- A lowercase hexadecimal digit. -/
def hexDigit (n : Nat) : Char :=
  if n < 10 then Char.ofNat (48 + n) else Char.ofNat (87 + n)

/-- The `0x%02x` rendering of a byte in the `UnicodeDecodeError` message. -/
def hexByte (b : Nat) : String := String.mk [hexDigit (b / 16), hexDigit (b % 16)]

/-- The `str` of a `UnicodeDecodeError` for the utf-8 codec: for a
single-byte error span the offending byte is shown, for a longer span the
inclusive position range. -/
def utf8ErrMsg (b pos : Nat) (reason : String) (span : Nat) : String :=
  if span = 1 then
    "\x27utf-8\x27 codec can\x27t decode byte 0x" ++ hexByte b ++ " in position " ++
      toString pos ++ ": " ++ reason
  else
    "\x27utf-8\x27 codec can\x27t decode bytes in position " ++ toString pos ++ "-" ++
      toString (pos + (span - 1)) ++ ": " ++ reason

/-- The decoding loop, driven by a fuel bounded below by the number of code
points (each step consumes at least one byte and one unit of fuel); called
with fuel = byte count, so the fuel-exhaustion branch is unreachable.  The
second argument is the byte position of the current sequence start, used to
build the error message. -/
def utf8DecodeLoop : Nat → Nat → List Nat → Except String (List Char)
  | _, _, [] => .ok []
  | 0, _, _ :: _ => .error "unexpected end of data"
  | fuel + 1, pos, b :: rest =>
      match utf8DecodeOne b rest with
      | .error (reason, span) => .error (utf8ErrMsg b pos reason span)
      | .ok (n, rest2) =>
          (utf8DecodeLoop fuel (pos + (rest.length + 1 - rest2.length)) rest2).map
            (fun cs => Char.ofNat n :: cs)

/-- Strict UTF-8 decoding of a byte list. -/
def utf8Decode (bytes : List Nat) : Except String (List Char) :=
  utf8DecodeLoop bytes.length 0 bytes

/-- The base64 alphabet, value to character. -/
def b64EncChar (n : Nat) : Char :=
  if n < 26 then Char.ofNat (65 + n)
  else if n < 52 then Char.ofNat (97 + (n - 26))
  else if n < 62 then Char.ofNat (48 + (n - 52))
  else if n = 62 then Char.ofNat 43
  else Char.ofNat 47

/-- The base64 alphabet, character to value (`table_a2b_base64`). -/
def b64DecChar (c : Char) : Option Nat :=
  if 65 ≤ c.toNat ∧ c.toNat ≤ 90 then some (c.toNat - 65)
  else if 97 ≤ c.toNat ∧ c.toNat ≤ 122 then some (c.toNat - 97 + 26)
  else if 48 ≤ c.toNat ∧ c.toNat ≤ 57 then some (c.toNat - 48 + 52)
  else if c.toNat = 43 then some 62
  else if c.toNat = 47 then some 63
  else none

/-- `binascii.b2a_base64`: three bytes to four characters, with padding. -/
def b64EncodeBytes : List Nat → List Char
  | [] => []
  | [a] => [b64EncChar (a / 4), b64EncChar (a % 4 * 16), '=', '=']
  | [a, b] => [b64EncChar (a / 4), b64EncChar (a % 4 * 16 + b / 16),
               b64EncChar (b % 16 * 4), '=']
  | a :: b :: c :: rest =>
      b64EncChar (a / 4) :: b64EncChar (a % 4 * 16 + b / 16) ::
        b64EncChar (b % 16 * 4 + c / 64) :: b64EncChar (c % 64) :: b64EncodeBytes rest

/-- The legacy-mode scanner of `binascii.a2b_base64`: state is the position
in the current quad, the pending bits, the count of pending pad characters
and the reversed output; bytes are emitted eagerly on the second, third and
fourth character of each quad, a completed padding sequence ends the scan,
and leftover data characters at the end raise. -/
def a2bBase64Scan : List Char → Nat → Nat → Nat → List Nat → Except String (List Nat)
  | [], quadPos, _, _, acc =>
      if quadPos = 0 then .ok acc.reverse
      else if quadPos = 1 then
        .error ("Invalid base64-encoded string: number of data characters (" ++
          toString (acc.length / 3 * 4 + 1) ++ ") cannot be 1 more than a multiple of 4")
      else .error "Incorrect padding"
  | c :: cs, quadPos, leftchar, pads, acc =>
      if c.toNat = 61 then
        if 2 ≤ quadPos ∧ 4 ≤ quadPos + (pads + 1) then .ok acc.reverse
        else a2bBase64Scan cs quadPos leftchar (pads + 1) acc
      else
        match b64DecChar c with
        | none => a2bBase64Scan cs quadPos leftchar pads acc
        | some v =>
            match quadPos with
            | 0 => a2bBase64Scan cs 1 v 0 acc
            | 1 => a2bBase64Scan cs 2 (v % 16) 0 ((leftchar * 4 + v / 16) :: acc)
            | 2 => a2bBase64Scan cs 3 (v % 4) 0 ((leftchar * 16 + v / 4) :: acc)
            | _ => a2bBase64Scan cs 0 0 0 ((leftchar * 64 + v) :: acc)

/-- `base64.b64decode` on a `str` argument: ASCII check
(`_bytes_from_decode_data`) followed by the legacy scanner. -/
def pyB64DecodeToBytes (s : String) : Except String (List Nat) :=
  if s.toList.any (fun c => 128 ≤ c.toNat) then
    .error "string argument should contain only ASCII characters"
  else a2bBase64Scan s.toList 0 0 0 []

/-- `base64.b64decode(data).decode('utf-8')` as an exception-or-value. -/
def base64DecodeResult (data : String) : Except String String := do
  let bytes ← pyB64DecodeToBytes data
  let cs ← utf8Decode bytes
  pure (String.mk cs)

/-- `base64_decode` from `tools.py`: the `try`/`except` converts any
exception into an error string. -/
def base64_decode (data : String) : String :=
  match base64DecodeResult data with
  | .ok s => s
  | .error e => "Error decoding base64: " ++ e

/-- `base64_encode` from `tools.py`. -/
def base64_encode (data : String) : String :=
  String.mk (b64EncodeBytes (utf8Encode data.toList))

/-! ## The tool dispatcher (`execute_tool` in `tools.py`)

Tool handlers whose bodies live outside the repository (hashlib, sqlite,
subprocess, the Selenium driver) are oracles collected in a `ToolEnv`;
`.error e` models the handler raising an exception with `str(e) = e`.  The
in-repository logic — argument lookup (a missing key raises `KeyError`,
whose `str` is the quoted key), result formatting, the game-status board
display, and the inner `try`/`except` of the `getCurrGameStatus` branch —
is embedded directly. -/

/-- A JSON-ish tool argument value. -/
inductive JVal where
  | str (s : String)
  | num (n : Int)
deriving DecidableEq

/-- Python f-string interpolation of an argument value. -/
def jvalText : JVal → String
  | .str s => s
  | .num n => toString n

/-- The `arguments` mapping. -/
def Args : Type := List (String × JVal)

/-- `arguments[k]`: a missing key raises `KeyError(k)`, with `str` the
repr-quoted key. -/
def lookupArg (args : Args) (k : String) : Except String JVal :=
  match args.find? (fun p => p.1 = k) with
  | some p => .ok p.2
  | none => .error ("\x27" ++ k ++ "\x27")

/-- `arguments.get(k, d)`. -/
def lookupArgD (args : Args) (k : String) (d : JVal) : JVal :=
  match args.find? (fun p => p.1 = k) with
  | some p => p.2
  | none => d

/-- The dict returned by `getCurrGameStatus` in `tictactoe_tool.py`. -/
structure GameState where
  currentGameBoard : List (List String)
  gameStatus : String
deriving DecidableEq

/-- Oracles for the externally-effectful tool bodies. -/
structure ToolEnv where
  md5_digest : JVal → Except String String
  sha512_digest : JVal → Except String String
  execute_code : JVal → Except String String
  get_recent_client_inputs : JVal → JVal → Except String String
  get_driver : Except String Unit
  press_cell : JVal → Except String Bool
  getCurrGameStatus : Except String (Option GameState)
  getWinningNumber : Except String (Option String)
  start_new_game : Except String Unit
  close_driver : Except String Unit

/-- Python `repr` of a list of naturals, as produced by an f-string. -/
def pyNatListRepr (ns : List Nat) : String :=
  "[" ++ String.intercalate ", " (ns.map toString) ++ "]"

/-- One step of the CPython set probe sequence on the initial 8-slot table:
`i = i*5 + 1 + perturb` with `perturb = hash >> 5 = 0` for the small-int
hashes (≤ 8) in play here; the `LINEAR_PROBES` scan of `set_add_entry`
never applies on a table of mask 7 (`i + 9 ≤ 7` is impossible). -/
def setProbeNext (i : Nat) : Nat := (i * 5 + 1) % 8

/-- The slot at which `set_add_entry` settles value `v` on the 8-slot
table: the first slot of the probe sequence that is empty or already holds
`v`.  The probe sequence visits all 8 slots, so fuel 8 suffices on a table
with a free slot. -/
def setFindSlot (table : List (Option Nat)) (v : Nat) : Nat → Nat → Nat
  | 0, i => i
  | fuel + 1, i =>
      match table.getD i none with
      | none => i
      | some w => if w = v then i else setFindSlot table v fuel (setProbeNext i)

/-- Insertion of `v` into the 8-slot table (idempotent when `v` is
present). -/
def setInsert8 (table : List (Option Nat)) (v : Nat) : List (Option Nat) :=
  table.set (setFindSlot table v 8 (v % 8)) (some v)

/-- The distinct values of `ns` in first-occurrence order (`so->fill` is
their count: duplicates find their entry and change nothing). -/
def pyDistinct (ns : List Nat) : List Nat :=
  ns.foldl (fun acc v => if acc.contains v then acc else acc ++ [v]) []

/-- `list(set(ns))` for CPython small-int elements in `0..8` (`hash(v) = v`):
with at most 4 distinct values the set stays on its initial 8-slot table and
iterates in slot order, with collisions (value 8 hashes to slot 0) resolved
by the probe sequence; inserting the 5th distinct value makes
`set_add_entry` trip the `fill*5 ≥ mask*3` check and resize the table to 32
slots, on which every value in `0..8` occupies its own slot, so iteration
is ascending from then on. -/
def pySmallIntSet (ns : List Nat) : List Nat :=
  if (pyDistinct ns).length ≤ 4 then
    (ns.foldl setInsert8 (List.replicate 8 none)).filterMap id
  else (List.range 9).filter (fun i => ns.contains i)

/-- `format_cell` from the `getCurrGameStatus` branch of `execute_tool`. -/
def format_cell (row col : Nat) (cell : String) : String :=
  if cell ≠ "" then " " ++ pyToUpper cell ++ " " else " " ++ toString (row * 3 + col) ++ " "

/-- One displayed row of the board grid. -/
def boardDisplayRow (board : List (List String)) (row : Nat) : String :=
  "   │" ++ String.join ((List.range 3).map (fun col =>
    format_cell row col ((board.getD row []).getD col "") ++ "│")) ++ "\n"

/-- The `lines` list used for the threat/opportunity analysis. -/
def analysisLines : List (List (Nat × Nat)) :=
  [[(0,0),(0,1),(0,2)], [(1,0),(1,1),(1,2)], [(2,0),(2,1),(2,2)],
   [(0,0),(1,0),(2,0)], [(0,1),(1,1),(2,1)], [(0,2),(1,2),(2,2)],
   [(0,0),(1,1),(2,2)], [(0,2),(1,1),(2,0)]]

/-- Count of line cells equal to `v`. -/
def lineCount (board : List (List String)) (line : List (Nat × Nat)) (v : String) : Nat :=
  (line.filter (fun rc => ((board.getD rc.1 []).getD rc.2 "") = v)).length

/-- The empty cells of a line, as positions. -/
def lineEmpties (board : List (List String)) (line : List (Nat × Nat)) : List Nat :=
  line.filterMap (fun rc =>
    if ((board.getD rc.1 []).getD rc.2 "") = "" then some (rc.1 * 3 + rc.2) else none)

/-- The board visualization string built in the `getCurrGameStatus` branch. -/
def gameStatusDisplay (gs : GameState) : String :=
  let board := gs.currentGameBoard
  let status := gs.gameStatus
  let base :=
    "📋 GAME BOARD (You are X, Computer is O):\n" ++
    "   Positions: 0|1|2, 3|4|5, 6|7|8\n" ++
    "   ┌───┬───┬───┐\n" ++
    boardDisplayRow board 0 ++ "   ├───┼───┼───┤\n" ++
    boardDisplayRow board 1 ++ "   ├───┼───┼───┤\n" ++
    boardDisplayRow board 2 ++
    "   └───┴───┴───┘\n" ++
    "🎯 Status: " ++ pyToUpper status
  if status = "still playing" then
    let empty_cells := (List.range 3).flatMap (fun row =>
      (List.range 3).filterMap (fun col =>
        if ((board.getD row []).getD col "") = "" then some (row * 3 + col) else none))
    let opportunities := analysisLines.flatMap (fun line =>
      if lineCount board line "x" = 2 ∧ (lineEmpties board line).length = 1 then
        lineEmpties board line
      else [])
    let threats := analysisLines.flatMap (fun line =>
      if ¬ (lineCount board line "x" = 2 ∧ (lineEmpties board line).length = 1) ∧
          lineCount board line "o" = 2 ∧ (lineEmpties board line).length = 1 then
        lineEmpties board line
      else [])
    base ++ "\n🎲 Available moves: " ++ pyNatListRepr empty_cells ++
      (if opportunities ≠ [] then
        "\n🎯 WIN OPPORTUNITIES: " ++ pyNatListRepr (pySmallIntSet opportunities)
       else "") ++
      (if threats ≠ [] then
        "\n🚨 BLOCK THREATS: " ++ pyNatListRepr (pySmallIntSet threats)
       else "")
  else base

/-- The body of the outer `try` of `execute_tool`: `.error e` is an escaped
exception, to be converted by the outer `except`. -/
def executeToolBody (env : ToolEnv) (tool_name : String) (arguments : Args) :
    Except String String :=
  if tool_name = "md5_digest" then do
    let v ← lookupArg arguments "data"
    env.md5_digest v
  else if tool_name = "sha512_digest" then do
    let v ← lookupArg arguments "data"
    env.sha512_digest v
  else if tool_name = "base64_encode" then do
    let v ← lookupArg arguments "data"
    match v with
    | .str s => .ok (base64_encode s)
    | .num _ => .error "\x27int\x27 object has no attribute \x27encode\x27"
  else if tool_name = "base64_decode" then do
    let v ← lookupArg arguments "data"
    match v with
    | .str s => .ok (base64_decode s)
    | .num _ => .error "argument should be a bytes-like object or ASCII string, not \x27int\x27"
  else if tool_name = "execute_code" then do
    let v ← lookupArg arguments "code"
    env.execute_code v
  else if tool_name = "get_recent_client_inputs" then do
    let k ← lookupArg arguments "k"
    env.get_recent_client_inputs k (lookupArgD arguments "user_id" (.str "default"))
  else if tool_name = "press_cell" then do
    let _ ← env.get_driver
    let v ← lookupArg arguments "num"
    let result ← env.press_cell v
    if result then .ok ("✅ Cell " ++ jvalText v ++ " pressed successfully")
    else .ok ("❌ Failed to press cell " ++ jvalText v)
  else if tool_name = "getCurrGameStatus" then
    match (do
      let _ ← env.get_driver
      let r ← env.getCurrGameStatus
      match r with
      | some gs => Except.ok (gameStatusDisplay gs)
      | none => Except.ok "❌ Failed to get game status" : Except String String) with
    | .ok s => .ok s
    | .error e =>
        if strContainsSub (pyToLower e) "timeout" || strContainsSub e "timeoutexception" then do
          let _ ← env.close_driver
          .ok "⏱️ Website loading timeout - try again or check connection"
        else .ok ("❌ Error getting game status: " ++ e)
  else if tool_name = "getWinningNumber" then do
    let _ ← env.get_driver
    let r ← env.getWinningNumber
    match r with
    | some n => if n = "" then .ok "❌ No winning number found"
                else .ok ("🏆 Winning number: " ++ n)
    | none => .ok "❌ No winning number found"
  else if tool_name = "start_new_tictactoe_game" then do
    let _ ← env.get_driver
    let _ ← env.start_new_game
    .ok "🎮 Started fresh tic-tac-toe game (cleared cache)"
  else if tool_name = "close_tictactoe_browser" then do
    let _ ← env.close_driver
    .ok "🔒 Closed tic-tac-toe browser"
  else
    .ok ("Unknown tool: " ++ tool_name)

/-- `execute_tool(tool_name, arguments)`: the outer `except Exception`
converts any escaped exception into an error string. -/
def execute_tool (env : ToolEnv) (tool_name : String) (arguments : Args) : String :=
  match executeToolBody env tool_name arguments with
  | .ok s => s
  | .error e => "Error executing " ++ tool_name ++ ": " ++ e

/-- The names handled by the registry (the `if`/`elif` chain). -/
def registeredToolNames : List String :=
  ["md5_digest", "sha512_digest", "base64_encode", "base64_decode",
   "execute_code", "get_recent_client_inputs", "press_cell",
   "getCurrGameStatus", "getWinningNumber", "start_new_tictactoe_game",
   "close_tictactoe_browser"]

/-- The text blocks of a response joined in order — the wording of claim C9
("the concatenation of all text blocks in response order"). -/
def textBlocksJoined (rs : List RespBlock) : String :=
  (rs.filterMap (fun b => match b with | .text s => some s | _ => none)).foldr
    (fun a b => a ++ b) ""

/-! ## Concrete example inputs used by counterexamples and witnesses -/

/-- A plain filler user message. -/
def exFiller : Msg := ⟨.user, .str "f"⟩

/-- An assistant message carrying one tool_use block. -/
def exAssistantTU : Msg := ⟨.assistant, .blocks [Block.toolUse "t1" "md5_digest" "abc"]⟩

/-- A user message carrying the matching short tool_result. -/
def exUserTRShort : Msg := ⟨.user, .blocks [Block.toolResult "t1" "ok"]⟩

/-- A user message carrying the matching long (500-character) tool_result. -/
def exUserTRLong : Msg := ⟨.user, .blocks [Block.toolResult "t1" (String.mk (List.replicate 500 'a'))]⟩

/-- A 25-message transcript whose only tool pair sits exactly across the
trimming cut: 5 messages of history, the pair, then 18 recent messages. -/
def exC1Transcript : List Msg :=
  [⟨.user, .str "start"⟩, exFiller, exFiller, exFiller, exFiller,
   exAssistantTU, exUserTRLong] ++ List.replicate 18 exFiller

/-- A tool environment whose externally-effectful handlers all raise
`"boom"`, with a working driver manager. -/
def envBoom : ToolEnv where
  md5_digest := fun _ => .error "boom"
  sha512_digest := fun _ => .error "boom"
  execute_code := fun _ => .error "boom"
  get_recent_client_inputs := fun _ _ => .error "boom"
  get_driver := .ok ()
  press_cell := fun _ => .error "boom"
  getCurrGameStatus := .error "boom"
  getWinningNumber := .error "boom"
  start_new_game := .error "boom"
  close_driver := .ok ()

/-! # Theorems

Helper lemmas first, then one theorem (plus witness / counterexample where
required) per claim. -/

theorem chatLoop_succ (client : ModelClient) (exec : String → String → String)
    (fuel : Nat) (ms : List Msg) :
    chatLoop client exec (fuel + 1) ms =
      match client (trim_conversation_history (compact_tool_sequences ms)) with
      | .error e => ("Claude API error: " ++ e, 1)
      | .ok rs =>
          if hasToolCalls rs then
            ((chatLoop client exec fuel
                (appendToolTurn exec rs (trim_conversation_history (compact_tool_sequences ms)))).1,
             (chatLoop client exec fuel
                (appendToolTurn exec rs (trim_conversation_history (compact_tool_sequences ms)))).2 + 1)
          else (finalAnswerOf rs, 1) := rfl

theorem chatLoop_snd_le (client : ModelClient) (exec : String → String → String) :
    ∀ fuel ms, (chatLoop client exec fuel ms).2 ≤ fuel := by
  intro fuel
  induction fuel with
  | zero => intro ms; simp [chatLoop]
  | succ n ih =>
      intro ms
      rw [chatLoop_succ]
      cases h : client (trim_conversation_history (compact_tool_sequences ms)) with
      | error e => simp
      | ok rs =>
          by_cases htc : hasToolCalls rs
          · simpa [htc] using Nat.succ_le_succ (ih _)
          · simp [htc]

theorem chatLoop_adversarial (client : ModelClient) (exec : String → String → String)
    (h : ∀ ms, ∃ rs, client ms = .ok rs ∧ hasToolCalls rs = true) :
    ∀ fuel ms, chatLoop client exec fuel ms = (iteration_limit_message, fuel) := by
  intro fuel
  induction fuel with
  | zero => intro ms; rfl
  | succ n ih =>
      intro ms
      obtain ⟨rs, hc, ht⟩ := h (trim_conversation_history (compact_tool_sequences ms))
      rw [chatLoop_succ, hc]
      simp only [ht, if_true, ih]

/-- C3: the orchestration loop performs at most `max_iterations` iterations
for every model client (termination is structural in the embedding), and a
client that always requests a tool call makes the loop exhaust all
`max_iterations` iterations and return the fixed iteration-limit message. -/
theorem c3_iteration_bound (client : ModelClient) (exec : String → String → String)
    (messages : List Msg) (images : List Image) :
    (chatRun client exec messages images).2 ≤ max_iterations ∧
    ((∀ ms, ∃ rs, client ms = .ok rs ∧ hasToolCalls rs = true) →
      chatRun client exec messages images = (iteration_limit_message, max_iterations)) := by
  constructor
  · exact chatLoop_snd_le client exec max_iterations _
  · intro h
    exact chatLoop_adversarial client exec h max_iterations _

/-- Witness for C3 at a concrete adversarial client. -/
theorem c3_iteration_bound_witness :
    chatRun (fun _ => Except.ok [RespBlock.toolUse "t1" "noop" "x"]) (fun _ _ => "ok")
      [⟨Role.user, Content.str "hi"⟩] [] = (iteration_limit_message, max_iterations) :=
  (c3_iteration_bound _ _ _ _).2 (fun _ => ⟨_, rfl, rfl⟩)

/-- C8: an exception raised by the model call is caught by the `try`/`except`
of `chat` and converted into a `"Claude API error: ..."` string — at any
iteration of the loop, and in particular through `invoke`, which therefore
always returns a string. -/
theorem c8_model_errors_converted (client : ModelClient) (exec : String → String → String) :
    (∀ fuel ms e, client (trim_conversation_history (compact_tool_sequences ms)) = .error e →
      chatLoop client exec (fuel + 1) ms = ("Claude API error: " ++ e, 1)) ∧
    (∀ u images e,
      client (trim_conversation_history (compact_tool_sequences
        (addImagesToConversation images [⟨Role.user, Content.str u⟩]))) = .error e →
      invoke client exec u images = "Claude API error: " ++ e) := by
  have base : ∀ fuel ms e,
      client (trim_conversation_history (compact_tool_sequences ms)) = .error e →
      chatLoop client exec (fuel + 1) ms = ("Claude API error: " ++ e, 1) := by
    intro fuel ms e h
    rw [chatLoop_succ, h]
  refine ⟨base, ?_⟩
  intro u images e h
  have hfilter : List.filter (fun m => decide (m.role ≠ Role.system))
      [(⟨Role.user, Content.str u⟩ : Msg)] = [⟨Role.user, Content.str u⟩] := rfl
  have := base 14 (addImagesToConversation images [⟨Role.user, Content.str u⟩]) e h
  simp only [invoke, chat, chatRun, hfilter]
  rw [show (max_iterations : Nat) = 14 + 1 from rfl, this]

/-- Witness for C8 at a client that always raises. -/
theorem c8_model_errors_converted_witness :
    invoke (fun _ => Except.error "boom") (fun _ _ => "") "hi" [] = "Claude API error: boom" :=
  (c8_model_errors_converted _ _).2 "hi" [] "boom" rfl

theorem compactScan_cons3 (m1 m2 m3 : Msg) (rest : List Msg) :
    compactScan (m1 :: m2 :: m3 :: rest) =
      if isPairStart m1 m2 && decide (total_result_length m2 < 500) then
        compactSummaryMsg m1 :: compactScan (m3 :: rest)
      else m1 :: compactScan (m2 :: m3 :: rest) := rfl

theorem compactScan_short (l : List Msg) (h : l.length ≤ 2) : compactScan l = l := by
  match l, h with
  | [], _ => rfl
  | [_], _ => rfl
  | [_, _], _ => rfl

theorem scanFixed_cons3 (m1 m2 m3 : Msg) (rest : List Msg) :
    scanFixed (m1 :: m2 :: m3 :: rest) =
      (!(isPairStart m1 m2 && decide (total_result_length m2 < 500)) &&
        scanFixed (m2 :: m3 :: rest)) := rfl

theorem compactScan_eq_self : ∀ l, scanFixed l = true → compactScan l = l
  | [], _ => rfl
  | [_], _ => rfl
  | [_, _], _ => rfl
  | m1 :: m2 :: m3 :: rest, h => by
      rw [scanFixed_cons3, Bool.and_eq_true, Bool.not_eq_true'] at h
      rw [compactScan_cons3, if_neg (by simp [h.1]),
        compactScan_eq_self (m2 :: m3 :: rest) h.2]

/-- C2 counterexample: a transcript whose final two messages are an adjacent
(assistant tool_use, user tool_result) pair with total result length below
the threshold, yet `_compact_tool_sequences` leaves it untouched because the
scan only considers pairs with `i < len(messages) - 2`. -/
theorem c2_counterexample :
    isPairStart exAssistantTU exUserTRShort = true ∧
    total_result_length exUserTRShort < 500 ∧
    compact_tool_sequences [⟨.user, .str "hi"⟩, ⟨.assistant, .str "yes"⟩,
        exAssistantTU, exUserTRShort] =
      [⟨.user, .str "hi"⟩, ⟨.assistant, .str "yes"⟩, exAssistantTU, exUserTRShort] := by
  decide

/-- C2 amended: a short-result pair is replaced by the synthetic
`"[Tool calls executed: ...]"` user message only when the transcript has at
least 4 messages and at least one message follows the pair (left-to-right
scan, shown here for the pair in head position); a pair whose total result
length is at or above 500 is kept; and a transcript in which the scan finds
no in-scope short pair is returned unchanged. -/
theorem c2_compaction_characterization :
    (∀ a u s, isPairStart a u = true → total_result_length u < 500 → 2 ≤ s.length →
      compact_tool_sequences (a :: u :: s) = compactSummaryMsg a :: compactScan s) ∧
    (∀ a u s, isPairStart a u = true → ¬ total_result_length u < 500 → 2 ≤ s.length →
      compact_tool_sequences (a :: u :: s) = a :: u :: compactScan s) ∧
    (∀ ms, scanFixed ms = true → compact_tool_sequences ms = ms) := by
  refine ⟨?_, ?_, ?_⟩
  · intro a u s hp hlen hs
    obtain ⟨x, s1, rfl⟩ : ∃ x s1, s = x :: s1 := by
      cases s with
      | nil => simp at hs
      | cons x s1 => exact ⟨x, s1, rfl⟩
    have hs1 : 1 ≤ s1.length := by simpa using hs
    rw [compact_tool_sequences,
      if_neg (by simp only [List.length_cons]; omega),
      compactScan_cons3, if_pos (by simp [hp, hlen])]
  · intro a u s hp hlen hs
    obtain ⟨x, s1, rfl⟩ : ∃ x s1, s = x :: s1 := by
      cases s with
      | nil => simp at hs
      | cons x s1 => exact ⟨x, s1, rfl⟩
    obtain ⟨y, s2, rfl⟩ : ∃ y s2, s1 = y :: s2 := by
      cases s1 with
      | nil => simp at hs
      | cons y s2 => exact ⟨y, s2, rfl⟩
    have huser : isToolUseAssistant u = false := by
      have hu : isToolResultUser u = true := by
        have h2 := hp
        simp only [isPairStart, Bool.and_eq_true] at h2
        exact h2.2
      simp only [isToolResultUser, Bool.and_eq_true, decide_eq_true_eq] at hu
      simp [isToolUseAssistant, hu.1]
    rw [compact_tool_sequences, if_neg (by simp only [List.length_cons]; omega),
      compactScan_cons3, if_neg (by simp [hp, hlen]),
      compactScan_cons3, if_neg (by simp [isPairStart, huser])]
  · intro ms hms
    unfold compact_tool_sequences
    split
    · rfl
    · exact compactScan_eq_self ms hms

set_option maxRecDepth 8000 in
/-- Witness for C2 amended: the three conjuncts at concrete transcripts. -/
theorem c2_compaction_characterization_witness :
    compact_tool_sequences [exAssistantTU, exUserTRShort, exFiller, exFiller] =
      [⟨.user, .str "[Tool calls executed: md5_digest - results processed]"⟩,
       exFiller, exFiller] ∧
    compact_tool_sequences [exAssistantTU, exUserTRLong, exFiller, exFiller] =
      [exAssistantTU, exUserTRLong, exFiller, exFiller] ∧
    compact_tool_sequences [exFiller, exFiller, exFiller, exFiller] =
      [exFiller, exFiller, exFiller, exFiller] :=
  ⟨(c2_compaction_characterization.1 exAssistantTU exUserTRShort [exFiller, exFiller]
      (by decide) (by decide) (by decide)).trans (by decide),
   (c2_compaction_characterization.2.1 exAssistantTU exUserTRLong [exFiller, exFiller]
      (by decide) (by decide) (by decide)).trans (by decide),
   c2_compaction_characterization.2.2 _ (by decide)⟩

theorem hwc_eq_hasThreeInLine (p a b c d e f g h i : String) :
    has_winning_combination [[a,b,c],[d,e,f],[g,h,i]] p =
      hasThreeInLine [[a,b,c],[d,e,f],[g,h,i]] (pyToLower p) := by
  simp only [has_winning_combination, hasThreeInLine, lineCoords,
    (by decide : List.range 3 = [0, 1, 2]),
    List.any_cons, List.all_cons, List.any_nil, List.all_nil,
    List.getD_cons_zero, List.getD_cons_succ]
  simp [Bool.or_assoc]

/-- C6 counterexample: a board whose top row is three upper-case X marks and
no textual signal.  Case-insensitive mark matching (as the claim states)
would classify this as a win for the player, but `determine_game_status`
lower-cases only the player argument and compares the cells verbatim, so it
returns "still playing". -/
theorem c6_counterexample :
    determine_game_status ⟨none, none⟩ [["X","X","X"],["o","",""],["","",""]] =
      "still playing" ∧
    hasThreeInLineCI [["X","X","X"],["o","",""],["","",""]] "x" = true := by
  decide

/-- C6 amended: on every 3x3 board, `determine_game_status` follows exactly
the claimed precedence — explicit win signal, explicit lose signal, a line of
the player, a line of the opponent, otherwise "still playing" even on a full
board — where the textual signals are matched case-insensitively but the
board marks are compared verbatim against the lower-case player marks
(case-insensitivity holds for the player argument of
`has_winning_combination`, not for the cells). -/
theorem c6_classifier_precedence (dom : DomSignals) (a b c d e f g h i : String) :
    determine_game_status dom [[a,b,c],[d,e,f],[g,h,i]] =
      classifySpec dom [[a,b,c],[d,e,f],[g,h,i]] := by
  unfold determine_game_status classifySpec
  rw [hwc_eq_hasThreeInLine, hwc_eq_hasThreeInLine,
    (by decide : pyToLower "x" = "x"), (by decide : pyToLower "o" = "o")]
  cases hA : congratsSaysWin dom <;> cases hB : statusSaysWin dom <;>
    cases hC : statusSaysLose dom <;> simp [hA, hB, hC]

theorem except_ok_bind {α β ε : Type} (a : α) (f : α → Except ε β) :
    (Except.ok a : Except ε α) >>= f = f a := rfl

theorem except_error_bind {α β ε : Type} (e : ε) (f : α → Except ε β) :
    (Except.error e : Except ε α) >>= f = Except.error e := rfl

/-- CPython small-int set iteration, pinned at concrete inserts: 8 hashes to
slot 0 of the 8-slot table, a displaced value follows the probe sequence,
duplicates change nothing, and a 5th distinct insert resizes the table so
iteration turns ascending (each case matches `list(set(...))`). -/
theorem pySmallIntSet_order :
    pySmallIntSet [2, 7, 8] = [8, 2, 7] ∧ pySmallIntSet [8, 0] = [8, 0] ∧
    pySmallIntSet [0, 8, 1] = [0, 8, 1] ∧ pySmallIntSet [8, 8, 2, 2] = [8, 2] ∧
    pySmallIntSet [2, 7, 8, 4, 6] = [2, 4, 6, 7, 8] := by decide

set_option maxRecDepth 8000 in
/-- The board display of the `getCurrGameStatus` branch on a concrete board
with win opportunities at cells 2, 7 and 8: the f-string prints
`list(set([2, 7, 8]))`, which iterates as `[8, 2, 7]`. -/
theorem gameStatusDisplay_example :
    gameStatusDisplay ⟨[["x", "x", ""], ["", "x", ""], ["", "", ""]], "still playing"⟩ =
      "📋 GAME BOARD (You are X, Computer is O):\n   Positions: 0|1|2, 3|4|5, 6|7|8\n   ┌───┬───┬───┐\n   │ X │ X │ 2 │\n   ├───┼───┼───┤\n   │ 3 │ X │ 5 │\n   ├───┼───┼───┤\n   │ 6 │ 7 │ 8 │\n   └───┴───┴───┘\n🎯 Status: STILL PLAYING\n🎲 Available moves: [2, 3, 5, 6, 7, 8]\n🎯 WIN OPPORTUNITIES: [8, 2, 7]" := by
  decide

/-- C7 counterexample: the `getCurrGameStatus` branch has its own inner
`try`/`except`, so an exception raised by the game-status handler is
converted to `"❌ Error getting game status: <message>"` and never reaches
the claimed `"Error executing getCurrGameStatus: <message>"` form. -/
theorem c7_counterexample :
    execute_tool envBoom "getCurrGameStatus" [] = "❌ Error getting game status: boom" ∧
    execute_tool envBoom "getCurrGameStatus" [] ≠ "Error executing getCurrGameStatus: boom" := by
  decide

/-- C7 amended: `execute_tool` always returns a string.  An unregistered
name yields `"Unknown tool: <name>"`; an exception raised inside a handler
(including a `KeyError` from a missing argument) is converted to
`"Error executing <name>: <message>"` for every tool except
`getCurrGameStatus`, whose inner handler converts its own exceptions to
`"❌ Error getting game status: <message>"`, or to a fixed timeout notice
when the message matches the timeout test. -/
theorem c7_dispatcher_error_conversion :
    (∀ env name args, name ∉ registeredToolNames →
      execute_tool env name args = "Unknown tool: " ++ name) ∧
    (∀ env args v e, lookupArg args "data" = .ok v → env.md5_digest v = .error e →
      execute_tool env "md5_digest" args = "Error executing md5_digest: " ++ e) ∧
    (∀ env args v e, lookupArg args "data" = .ok v → env.sha512_digest v = .error e →
      execute_tool env "sha512_digest" args = "Error executing sha512_digest: " ++ e) ∧
    (∀ env args v e, lookupArg args "code" = .ok v → env.execute_code v = .error e →
      execute_tool env "execute_code" args = "Error executing execute_code: " ++ e) ∧
    (∀ env args v e, lookupArg args "k" = .ok v →
      env.get_recent_client_inputs v (lookupArgD args "user_id" (.str "default")) = .error e →
      execute_tool env "get_recent_client_inputs" args =
        "Error executing get_recent_client_inputs: " ++ e) ∧
    (∀ env args v e, env.get_driver = .ok () → lookupArg args "num" = .ok v →
      env.press_cell v = .error e →
      execute_tool env "press_cell" args = "Error executing press_cell: " ++ e) ∧
    (∀ env args e, env.get_driver = .ok () → env.getWinningNumber = .error e →
      execute_tool env "getWinningNumber" args = "Error executing getWinningNumber: " ++ e) ∧
    (∀ env args e, env.get_driver = .ok () → env.start_new_game = .error e →
      execute_tool env "start_new_tictactoe_game" args =
        "Error executing start_new_tictactoe_game: " ++ e) ∧
    (∀ env args e, env.close_driver = .error e →
      execute_tool env "close_tictactoe_browser" args =
        "Error executing close_tictactoe_browser: " ++ e) ∧
    (∀ env args e, lookupArg args "data" = .error e →
      execute_tool env "base64_decode" args = "Error executing base64_decode: " ++ e) ∧
    (∀ env args e, env.get_driver = .ok () → env.getCurrGameStatus = .error e →
      (strContainsSub (pyToLower e) "timeout" || strContainsSub e "timeoutexception") = false →
      execute_tool env "getCurrGameStatus" args = "❌ Error getting game status: " ++ e) ∧
    (∀ env args e, env.get_driver = .ok () → env.getCurrGameStatus = .error e →
      (strContainsSub (pyToLower e) "timeout" || strContainsSub e "timeoutexception") = true →
      env.close_driver = .ok () →
      execute_tool env "getCurrGameStatus" args =
        "⏱️ Website loading timeout - try again or check connection") := by
  refine ⟨?_, ?_, ?_, ?_, ?_, ?_, ?_, ?_, ?_, ?_, ?_, ?_⟩
  · intro env name args hname
    simp only [registeredToolNames, List.mem_cons, List.not_mem_nil, or_false, not_or] at hname
    obtain ⟨h1, h2, h3, h4, h5, h6, h7, h8, h9, h10, h11⟩ := hname
    simp [execute_tool, executeToolBody, h1, h2, h3, h4, h5, h6, h7, h8, h9, h10, h11]
  · intro env args v e hv he
    simp [execute_tool, executeToolBody, hv, he, except_ok_bind, except_error_bind]
  · intro env args v e hv he
    simp [execute_tool, executeToolBody, hv, he, except_ok_bind, except_error_bind]
  · intro env args v e hv he
    simp [execute_tool, executeToolBody, hv, he, except_ok_bind, except_error_bind]
  · intro env args v e hv he
    simp [execute_tool, executeToolBody, hv, he, except_ok_bind, except_error_bind]
  · intro env args v e hd hv he
    simp [execute_tool, executeToolBody, hd, hv, he, except_ok_bind, except_error_bind]
  · intro env args e hd he
    simp [execute_tool, executeToolBody, hd, he, except_ok_bind, except_error_bind]
  · intro env args e hd he
    simp [execute_tool, executeToolBody, hd, he, except_ok_bind, except_error_bind]
  · intro env args e he
    simp [execute_tool, executeToolBody, he, except_ok_bind, except_error_bind]
  · intro env args e he
    simp [execute_tool, executeToolBody, he, except_ok_bind, except_error_bind]
  · intro env args e hd he ht
    simp [execute_tool, executeToolBody, hd, he, ht, except_ok_bind, except_error_bind]
  · intro env args e hd he ht hc
    simp [execute_tool, executeToolBody, hd, he, ht, hc, except_ok_bind, except_error_bind]

/-- Witness for C7 amended: unknown tool, a raising hash handler, and the
missing-argument `KeyError`, at concrete inputs. -/
theorem c7_dispatcher_error_conversion_witness :
    execute_tool envBoom "frobnicate" [] = "Unknown tool: frobnicate" ∧
    execute_tool envBoom "md5_digest" [("data", JVal.str "abc")] =
      "Error executing md5_digest: boom" ∧
    execute_tool envBoom "base64_decode" [] = "Error executing base64_decode: \x27data\x27" ∧
    execute_tool envBoom "getCurrGameStatus" [] = "❌ Error getting game status: boom" :=
  ⟨c7_dispatcher_error_conversion.1 envBoom "frobnicate" [] (by decide),
   c7_dispatcher_error_conversion.2.1 envBoom [("data", JVal.str "abc")] (JVal.str "abc") "boom"
     rfl rfl,
   c7_dispatcher_error_conversion.2.2.2.2.2.2.2.2.2.1 envBoom [] "\x27data\x27" rfl,
   c7_dispatcher_error_conversion.2.2.2.2.2.2.2.2.2.2.1 envBoom [] "boom" rfl rfl (by decide)⟩

theorem finalTextOf_eq_joined (rs : List RespBlock) : finalTextOf rs = textBlocksJoined rs := by
  have gen : ∀ (l : List RespBlock) (acc : String),
      l.foldl (fun acc b => match b with | .text s => acc ++ s | _ => acc) acc =
        acc ++ (l.filterMap (fun b => match b with | .text s => some s | _ => none)).foldr
          (fun a b => a ++ b) "" := by
    intro l
    induction l with
    | nil => intro acc; simp
    | cons b rest ih =>
        intro acc
        cases b with
        | text s => simp [List.filterMap_cons, ih, String.append_assoc]
        | toolUse id n inp => simp [List.filterMap_cons, ih]
  simpa using gen rs ""

/-- C9: a model response with no tool_use block is the only terminal success
state of one loop iteration — the loop returns the stripped concatenation of
its text blocks, or the fixed fallback when that is empty — while a response
with a tool_use block makes the loop continue on the extended transcript. -/
theorem c9_terminal_behaviour (client : ModelClient) (exec : String → String → String)
    (fuel : Nat) (ms : List Msg) (rs : List RespBlock)
    (hresp : client (trim_conversation_history (compact_tool_sequences ms)) = .ok rs) :
    (hasToolCalls rs = false →
      chatLoop client exec (fuel + 1) ms =
        ((if pyStrip (textBlocksJoined rs) = "" then empty_response_fallback
          else pyStrip (textBlocksJoined rs)), 1)) ∧
    (hasToolCalls rs = true →
      chatLoop client exec (fuel + 1) ms =
        ((chatLoop client exec fuel
            (appendToolTurn exec rs (trim_conversation_history (compact_tool_sequences ms)))).1,
         (chatLoop client exec fuel
            (appendToolTurn exec rs (trim_conversation_history (compact_tool_sequences ms)))).2 + 1)) := by
  constructor
  · intro htc
    rw [chatLoop_succ, hresp]
    simp [htc, finalAnswerOf, finalTextOf_eq_joined, ite_not]
  · intro htc
    rw [chatLoop_succ, hresp]
    simp [htc]

/-- Witness for C9: a concrete terminal response whose text is edged with a
space, a no-break space and an em space, all stripped by `str.strip()`. -/
theorem c9_terminal_behaviour_witness :
    chatLoop (fun _ => Except.ok [RespBlock.text " \xA0hi\u2003"]) (fun _ _ => "") 1
      [⟨Role.user, Content.str "q"⟩] = ("hi", 1) :=
  ((c9_terminal_behaviour (fun _ => Except.ok [RespBlock.text " \xA0hi\u2003"]) (fun _ _ => "") 0
      [⟨Role.user, Content.str "q"⟩] [RespBlock.text " \xA0hi\u2003"] rfl).1 rfl).trans (by decide)

/-! Lemmas for the base64 round trip (claim C10). -/

theorem b64DecChar_encChar_fin : ∀ n : Fin 64, b64DecChar (b64EncChar n.val) = some n.val := by
  decide

theorem b64EncChar_ne_pad_fin : ∀ n : Fin 64, ¬ (b64EncChar n.val).toNat = 61 := by decide

theorem b64EncChar_ascii_fin : ∀ n : Fin 64, (b64EncChar n.val).toNat < 128 := by decide

theorem b64DecChar_encChar (n : Nat) (h : n < 64) : b64DecChar (b64EncChar n) = some n :=
  b64DecChar_encChar_fin ⟨n, h⟩

theorem b64EncChar_ne_pad (n : Nat) (h : n < 64) : ¬ (b64EncChar n).toNat = 61 :=
  b64EncChar_ne_pad_fin ⟨n, h⟩

theorem a2b_cons (c : Char) (cs : List Char) (q l p : Nat) (acc : List Nat) :
    a2bBase64Scan (c :: cs) q l p acc =
      if c.toNat = 61 then
        if 2 ≤ q ∧ 4 ≤ q + (p + 1) then .ok acc.reverse
        else a2bBase64Scan cs q l (p + 1) acc
      else
        match b64DecChar c with
        | none => a2bBase64Scan cs q l p acc
        | some v =>
            match q with
            | 0 => a2bBase64Scan cs 1 v 0 acc
            | 1 => a2bBase64Scan cs 2 (v % 16) 0 ((l * 4 + v / 16) :: acc)
            | 2 => a2bBase64Scan cs 3 (v % 4) 0 ((l * 16 + v / 4) :: acc)
            | _ => a2bBase64Scan cs 0 0 0 ((l * 64 + v) :: acc) := rfl

theorem pad_toNat : (Char.ofNat 61).toNat = 61 := by decide

theorem a2b_encode : ∀ (bytes : List Nat), (∀ b ∈ bytes, b < 256) →
    ∀ acc, a2bBase64Scan (b64EncodeBytes bytes) 0 0 0 acc = .ok (acc.reverse ++ bytes)
  | [], _, acc => by simp [b64EncodeBytes, a2bBase64Scan]
  | [a], h, acc => by
      have ha : a < 256 := h a (by simp)
      have h1 : a / 4 < 64 := by omega
      have h2 : a % 4 * 16 < 64 := by omega
      show a2bBase64Scan
        [b64EncChar (a / 4), b64EncChar (a % 4 * 16), '=', '='] 0 0 0 acc = _
      rw [a2b_cons, if_neg (b64EncChar_ne_pad _ h1), b64DecChar_encChar _ h1]
      show a2bBase64Scan [b64EncChar (a % 4 * 16), '=', '='] 1 (a / 4) 0 acc = _
      rw [a2b_cons, if_neg (b64EncChar_ne_pad _ h2), b64DecChar_encChar _ h2]
      show a2bBase64Scan ['=', '='] 2 (a % 4 * 16 % 16) 0
        ((a / 4 * 4 + a % 4 * 16 / 16) :: acc) = _
      rw [a2b_cons, if_pos (by decide : ('=' : Char).toNat = 61), if_neg (by omega)]
      rw [a2b_cons, if_pos (by decide : ('=' : Char).toNat = 61), if_pos (by omega)]
      have : a / 4 * 4 + a % 4 * 16 / 16 = a := by omega
      rw [this]
      simp
  | [a, b], h, acc => by
      have ha : a < 256 := h a (by simp)
      have hb : b < 256 := h b (by simp)
      have h1 : a / 4 < 64 := by omega
      have h2 : a % 4 * 16 + b / 16 < 64 := by omega
      have h3 : b % 16 * 4 < 64 := by omega
      show a2bBase64Scan [b64EncChar (a / 4), b64EncChar (a % 4 * 16 + b / 16),
        b64EncChar (b % 16 * 4), '='] 0 0 0 acc = _
      rw [a2b_cons, if_neg (b64EncChar_ne_pad _ h1), b64DecChar_encChar _ h1]
      show a2bBase64Scan [b64EncChar (a % 4 * 16 + b / 16), b64EncChar (b % 16 * 4), '=']
        1 (a / 4) 0 acc = _
      rw [a2b_cons, if_neg (b64EncChar_ne_pad _ h2), b64DecChar_encChar _ h2]
      show a2bBase64Scan [b64EncChar (b % 16 * 4), '='] 2 ((a % 4 * 16 + b / 16) % 16) 0
        ((a / 4 * 4 + (a % 4 * 16 + b / 16) / 16) :: acc) = _
      rw [a2b_cons, if_neg (b64EncChar_ne_pad _ h3), b64DecChar_encChar _ h3]
      show a2bBase64Scan ['='] 3 (b % 16 * 4 % 4) 0
        (((a % 4 * 16 + b / 16) % 16 * 16 + b % 16 * 4 / 4) ::
          (a / 4 * 4 + (a % 4 * 16 + b / 16) / 16) :: acc) = _
      rw [a2b_cons, if_pos (by decide : ('=' : Char).toNat = 61), if_pos (by omega)]
      have e1 : a / 4 * 4 + (a % 4 * 16 + b / 16) / 16 = a := by omega
      have e2 : (a % 4 * 16 + b / 16) % 16 * 16 + b % 16 * 4 / 4 = b := by omega
      rw [e1, e2]
      simp
  | a :: b :: c :: rest, h, acc => by
      have ha : a < 256 := h a (by simp)
      have hb : b < 256 := h b (by simp)
      have hc : c < 256 := h c (by simp)
      have h1 : a / 4 < 64 := by omega
      have h2 : a % 4 * 16 + b / 16 < 64 := by omega
      have h3 : b % 16 * 4 + c / 64 < 64 := by omega
      have h4 : c % 64 < 64 := by omega
      show a2bBase64Scan (b64EncChar (a / 4) :: b64EncChar (a % 4 * 16 + b / 16) ::
        b64EncChar (b % 16 * 4 + c / 64) :: b64EncChar (c % 64) :: b64EncodeBytes rest)
        0 0 0 acc = _
      rw [a2b_cons, if_neg (b64EncChar_ne_pad _ h1), b64DecChar_encChar _ h1]
      show a2bBase64Scan (b64EncChar (a % 4 * 16 + b / 16) ::
        b64EncChar (b % 16 * 4 + c / 64) :: b64EncChar (c % 64) :: b64EncodeBytes rest)
        1 (a / 4) 0 acc = _
      rw [a2b_cons, if_neg (b64EncChar_ne_pad _ h2), b64DecChar_encChar _ h2]
      show a2bBase64Scan (b64EncChar (b % 16 * 4 + c / 64) :: b64EncChar (c % 64) ::
        b64EncodeBytes rest) 2 ((a % 4 * 16 + b / 16) % 16) 0
        ((a / 4 * 4 + (a % 4 * 16 + b / 16) / 16) :: acc) = _
      rw [a2b_cons, if_neg (b64EncChar_ne_pad _ h3), b64DecChar_encChar _ h3]
      show a2bBase64Scan (b64EncChar (c % 64) :: b64EncodeBytes rest) 3
        ((b % 16 * 4 + c / 64) % 4)  0
        (((a % 4 * 16 + b / 16) % 16 * 16 + (b % 16 * 4 + c / 64) / 4) ::
          (a / 4 * 4 + (a % 4 * 16 + b / 16) / 16) :: acc) = _
      rw [a2b_cons, if_neg (b64EncChar_ne_pad _ h4), b64DecChar_encChar _ h4]
      have e1 : a / 4 * 4 + (a % 4 * 16 + b / 16) / 16 = a := by omega
      have e2 : (a % 4 * 16 + b / 16) % 16 * 16 + (b % 16 * 4 + c / 64) / 4 = b := by omega
      have e3 : (b % 16 * 4 + c / 64) % 4 * 64 + c % 64 = c := by omega
      rw [e1, e2]
      show a2bBase64Scan (b64EncodeBytes rest) 0 0 0
        (((b % 16 * 4 + c / 64) % 4 * 64 + c % 64) :: b :: a :: acc) = _
      rw [e3, a2b_encode rest (fun x hx => h x (by simp [hx])) (c :: b :: a :: acc)]
      simp

theorem char_valid_nat (c : Char) :
    c.toNat < 55296 ∨ 57343 < c.toNat ∧ c.toNat < 1114112 := c.valid

theorem char_toNat_lt (c : Char) : c.toNat < 1114112 := by
  rcases char_valid_nat c with h | h
  · omega
  · omega

theorem utf8EncodeChar_lt (c : Char) : ∀ b ∈ utf8EncodeChar c, b < 256 := by
  have h := char_toNat_lt c
  simp only [utf8EncodeChar]
  split_ifs with h1 h2 h3 <;> intro b hb <;> simp at hb <;> omega

theorem utf8Encode_lt : ∀ cs : List Char, ∀ b ∈ utf8Encode cs, b < 256 := by
  intro cs
  induction cs with
  | nil => intro b hb; simp [utf8Encode] at hb
  | cons c rest ih =>
      intro b hb
      simp only [utf8Encode, List.map_cons, List.flatten_cons, List.mem_append] at hb
      rcases hb with hb | hb
      · exact utf8EncodeChar_lt c b hb
      · exact ih b (by simpa [utf8Encode] using hb)

theorem utf8Encode_cons (c : Char) (cs : List Char) :
    utf8Encode (c :: cs) = utf8EncodeChar c ++ utf8Encode cs := by
  simp [utf8Encode]

theorem utf8EncodeChar_length_pos (c : Char) : 1 ≤ (utf8EncodeChar c).length := by
  simp only [utf8EncodeChar]
  split_ifs <;> simp

theorem utf8Encode_length_ge : ∀ cs : List Char, cs.length ≤ (utf8Encode cs).length := by
  intro cs
  induction cs with
  | nil => simp [utf8Encode]
  | cons c rest ih =>
      rw [utf8Encode_cons]
      have := utf8EncodeChar_length_pos c
      simp only [List.length_append, List.length_cons]
      omega

theorem utf8DecodeOne_encodeChar (c : Char) (bs : List Nat) :
    ∀ b tl, utf8EncodeChar c = b :: tl →
      utf8DecodeOne b (tl ++ bs) = .ok (c.toNat, bs) := by
  intro b tl henc
  have hv := char_valid_nat c
  simp only [utf8EncodeChar] at henc
  by_cases h1 : c.toNat < 128
  · rw [if_pos h1] at henc
    obtain ⟨rfl, rfl⟩ := List.cons_eq_cons.mp henc
    simp only [List.nil_append, utf8DecodeOne]
    rw [if_pos h1]
  · by_cases h2 : c.toNat < 2048
    · rw [if_neg h1, if_pos h2] at henc
      obtain ⟨rfl, htl⟩ := List.cons_eq_cons.mp henc
      subst htl
      simp only [List.cons_append, List.nil_append, utf8DecodeOne]
      rw [if_neg (by omega), if_neg (by omega), if_pos (by omega)]
      show (if 128 ≤ 128 + c.toNat % 64 ∧ 128 + c.toNat % 64 < 192 then
          Except.ok ((192 + c.toNat / 64 - 192) * 64 + (128 + c.toNat % 64 - 128), bs)
        else Except.error ("invalid continuation byte", 1)) = _
      rw [if_pos (by omega),
        (by omega : (192 + c.toNat / 64 - 192) * 64 + (128 + c.toNat % 64 - 128) = c.toNat)]
    · by_cases h3 : c.toNat < 65536
      · rw [if_neg h1, if_neg h2, if_pos h3] at henc
        obtain ⟨rfl, htl⟩ := List.cons_eq_cons.mp henc
        subst htl
        simp only [List.cons_append, List.nil_append, utf8DecodeOne]
        rw [if_neg (by omega), if_neg (by omega), if_neg (by omega), if_pos (by omega)]
        show (if (224 + c.toNat / 4096 = 224 → 160 ≤ 128 + c.toNat / 64 % 64) ∧
            (224 + c.toNat / 4096 = 237 → 128 + c.toNat / 64 % 64 < 160) ∧
            (128 ≤ 128 + c.toNat / 64 % 64 ∧ 128 + c.toNat / 64 % 64 < 192) then
          (if 128 ≤ 128 + c.toNat % 64 ∧ 128 + c.toNat % 64 < 192 then
            Except.ok ((224 + c.toNat / 4096 - 224) * 4096 +
              (128 + c.toNat / 64 % 64 - 128) * 64 + (128 + c.toNat % 64 - 128), bs)
          else Except.error ("invalid continuation byte", 2))
        else Except.error ("invalid continuation byte", 1)) = _
        rw [if_pos (by refine ⟨by omega, by omega, by omega⟩), if_pos (by omega),
          (by omega : (224 + c.toNat / 4096 - 224) * 4096 + (128 + c.toNat / 64 % 64 - 128) * 64 +
            (128 + c.toNat % 64 - 128) = c.toNat)]
      · rw [if_neg h1, if_neg h2, if_neg h3] at henc
        obtain ⟨rfl, htl⟩ := List.cons_eq_cons.mp henc
        subst htl
        have hn := char_toNat_lt c
        simp only [List.cons_append, List.nil_append, utf8DecodeOne]
        rw [if_neg (by omega), if_neg (by omega), if_neg (by omega), if_neg (by omega),
          if_pos (by omega)]
        show (if (240 + c.toNat / 262144 = 240 → 144 ≤ 128 + c.toNat / 4096 % 64) ∧
            (240 + c.toNat / 262144 = 244 → 128 + c.toNat / 4096 % 64 < 144) ∧
            (128 ≤ 128 + c.toNat / 4096 % 64 ∧ 128 + c.toNat / 4096 % 64 < 192) then
          (if 128 ≤ 128 + c.toNat / 64 % 64 ∧ 128 + c.toNat / 64 % 64 < 192 then
            (if 128 ≤ 128 + c.toNat % 64 ∧ 128 + c.toNat % 64 < 192 then
              Except.ok ((240 + c.toNat / 262144 - 240) * 262144 +
                (128 + c.toNat / 4096 % 64 - 128) * 4096 + (128 + c.toNat / 64 % 64 - 128) * 64 +
                (128 + c.toNat % 64 - 128), bs)
            else Except.error ("invalid continuation byte", 3))
          else Except.error ("invalid continuation byte", 2))
        else Except.error ("invalid continuation byte", 1)) = _
        rw [if_pos (by refine ⟨by omega, by omega, by omega⟩), if_pos (by omega),
          if_pos (by omega),
          (by omega : (240 + c.toNat / 262144 - 240) * 262144 +
            (128 + c.toNat / 4096 % 64 - 128) * 4096 + (128 + c.toNat / 64 % 64 - 128) * 64 +
            (128 + c.toNat % 64 - 128) = c.toNat)]

theorem utf8EncodeChar_ne_nil (c : Char) : utf8EncodeChar c ≠ [] := by
  simp only [utf8EncodeChar]
  split_ifs <;> simp

theorem utf8DecodeLoop_encode : ∀ (cs : List Char) (fuel pos : Nat), cs.length ≤ fuel →
    utf8DecodeLoop fuel pos (utf8Encode cs) = .ok cs
  | [], fuel, _, _ => by cases fuel <;> rfl
  | c :: cs, fuel, pos, h => by
      obtain ⟨b, tl, henc⟩ : ∃ b tl, utf8EncodeChar c = b :: tl := by
        cases hx : utf8EncodeChar c with
        | nil => exact absurd hx (utf8EncodeChar_ne_nil c)
        | cons b tl => exact ⟨b, tl, rfl⟩
      obtain ⟨f, rfl⟩ : ∃ f, fuel = f + 1 := by
        cases fuel with
        | zero => simp at h
        | succ f => exact ⟨f, rfl⟩
      rw [utf8Encode_cons, henc, List.cons_append]
      show (match utf8DecodeOne b (tl ++ utf8Encode cs) with
        | .error (reason, span) => Except.error (utf8ErrMsg b pos reason span)
        | .ok (n, rest2) =>
            (utf8DecodeLoop f (pos + ((tl ++ utf8Encode cs).length + 1 - rest2.length))
              rest2).map (fun cs => Char.ofNat n :: cs)) =
        Except.ok (c :: cs)
      rw [utf8DecodeOne_encodeChar c (utf8Encode cs) b tl henc]
      show (utf8DecodeLoop f
          (pos + ((tl ++ utf8Encode cs).length + 1 - (utf8Encode cs).length))
          (utf8Encode cs)).map (fun cs => Char.ofNat c.toNat :: cs) =
        Except.ok (c :: cs)
      rw [utf8DecodeLoop_encode cs f
          (pos + ((tl ++ utf8Encode cs).length + 1 - (utf8Encode cs).length))
          (by simpa using Nat.succ_le_succ_iff.mp h),
        Char.ofNat_toNat]
      rfl

theorem utf8Decode_encode (cs : List Char) : utf8Decode (utf8Encode cs) = .ok cs :=
  utf8DecodeLoop_encode cs (utf8Encode cs).length 0 (utf8Encode_length_ge cs)

theorem b64EncChar_ascii (n : Nat) (h : n < 64) : (b64EncChar n).toNat < 128 :=
  b64EncChar_ascii_fin ⟨n, h⟩

theorem b64EncodeBytes_ascii : ∀ bytes : List Nat, (∀ b ∈ bytes, b < 256) →
    ∀ c ∈ b64EncodeBytes bytes, c.toNat < 128
  | [], _, c, hc => by simp [b64EncodeBytes] at hc
  | [a], h, c, hc => by
      have ha : a < 256 := h a (by simp)
      simp only [b64EncodeBytes, List.mem_cons, List.not_mem_nil, or_false] at hc
      rcases hc with rfl | rfl | rfl | rfl
      · exact b64EncChar_ascii _ (by omega)
      · exact b64EncChar_ascii _ (by omega)
      · decide
      · decide
  | [a, b], h, c, hc => by
      have ha : a < 256 := h a (by simp)
      have hb : b < 256 := h b (by simp)
      simp only [b64EncodeBytes, List.mem_cons, List.not_mem_nil, or_false] at hc
      rcases hc with rfl | rfl | rfl | rfl
      · exact b64EncChar_ascii _ (by omega)
      · exact b64EncChar_ascii _ (by omega)
      · exact b64EncChar_ascii _ (by omega)
      · decide
  | a :: b :: d :: rest, h, c, hc => by
      have ha : a < 256 := h a (by simp)
      have hb : b < 256 := h b (by simp)
      have hd : d < 256 := h d (by simp)
      simp only [b64EncodeBytes, List.mem_cons] at hc
      rcases hc with rfl | rfl | rfl | rfl | hc
      · exact b64EncChar_ascii _ (by omega)
      · exact b64EncChar_ascii _ (by omega)
      · exact b64EncChar_ascii _ (by omega)
      · exact b64EncChar_ascii _ (by omega)
      · exact b64EncodeBytes_ascii rest (fun x hx => h x (by simp [hx])) c hc

theorem string_mk_toList (s : String) : String.mk s.toList = s := rfl

theorem pyB64DecodeToBytes_mk_encode (bytes : List Nat) (h : ∀ b ∈ bytes, b < 256) :
    pyB64DecodeToBytes (String.mk (b64EncodeBytes bytes)) = .ok bytes := by
  have hascii : ∀ c ∈ b64EncodeBytes bytes, c.toNat < 128 := b64EncodeBytes_ascii bytes h
  have hl : (String.mk (b64EncodeBytes bytes)).toList = b64EncodeBytes bytes := rfl
  unfold pyB64DecodeToBytes
  rw [hl, if_neg (by
    rw [Bool.not_eq_true, List.any_eq_false]
    intro c hc
    have h2 := hascii c hc
    simp only [decide_eq_true_eq]
    omega),
    a2b_encode bytes h []]
  simp

/-- C10: `base64_decode` never raises — decoding the `base64_encode` of any
string returns that string, a successfully decoded input returns the decoded
text, and any decode failure returns `"Error decoding base64: "` followed by
the exception message. -/
theorem c10_base64_decode_total :
    (∀ s : String, base64_decode (base64_encode s) = s) ∧
    (∀ s t, base64DecodeResult s = .ok t → base64_decode s = t) ∧
    (∀ s e, base64DecodeResult s = .error e →
      base64_decode s = "Error decoding base64: " ++ e) := by
  refine ⟨?_, ?_, ?_⟩
  · intro s
    have hbytes : ∀ b ∈ utf8Encode s.toList, b < 256 := utf8Encode_lt s.toList
    unfold base64_decode base64DecodeResult base64_encode
    rw [pyB64DecodeToBytes_mk_encode _ hbytes]
    simp only [except_ok_bind]
    rw [utf8Decode_encode s.toList]
    rfl
  · intro s t h
    unfold base64_decode
    rw [h]
  · intro s e h
    unfold base64_decode
    rw [h]

set_option maxRecDepth 8000 in
/-- Witness for C10: the round trip, a successful decode, a failing
`binascii` decode, and two failing UTF-8 decodes (bytes `80` and `e0 ff`)
whose results carry the full `UnicodeDecodeError` messages, at concrete
inputs. -/
theorem c10_base64_decode_total_witness :
    base64_decode (base64_encode "hello") = "hello" ∧
    base64_decode "aGVsbG8=" = "hello" ∧
    base64_decode "a" = "Error decoding base64: Invalid base64-encoded string: number of data characters (1) cannot be 1 more than a multiple of 4" ∧
    base64_decode "gA==" = "Error decoding base64: \x27utf-8\x27 codec can\x27t decode byte 0x80 in position 0: invalid start byte" ∧
    base64_decode "4P8=" = "Error decoding base64: \x27utf-8\x27 codec can\x27t decode byte 0xe0 in position 0: invalid continuation byte" :=
  ⟨c10_base64_decode_total.1 "hello",
   c10_base64_decode_total.2.1 "aGVsbG8=" "hello" rfl,
   c10_base64_decode_total.2.2 "a"
     "Invalid base64-encoded string: number of data characters (1) cannot be 1 more than a multiple of 4" rfl,
   c10_base64_decode_total.2.2 "gA=="
     "\x27utf-8\x27 codec can\x27t decode byte 0x80 in position 0: invalid start byte" rfl,
   c10_base64_decode_total.2.2 "4P8="
     "\x27utf-8\x27 codec can\x27t decode byte 0xe0 in position 0: invalid continuation byte"
     rfl⟩

theorem trim_id_small (messages : List Msg) (h : messages.length ≤ 3) :
    trim_conversation_history messages = messages := by
  unfold trim_conversation_history
  rw [if_pos h]

theorem trim_id_of_budget (messages : List Msg)
    (hb : total_estimated_tokens messages ≤ max_tokens_estimate ∧
      messages.length ≤ max_context_messages) :
    trim_conversation_history messages = messages := by
  by_cases h3 : messages.length ≤ 3
  · exact trim_id_small messages h3
  · unfold trim_conversation_history
    rw [if_neg h3]
    simp only []
    rw [if_pos hb]

theorem trim_overflow (messages : List Msg) (h3 : ¬ messages.length ≤ 3)
    (hb : ¬ (total_estimated_tokens messages ≤ max_tokens_estimate ∧
      messages.length ≤ max_context_messages)) :
    trim_conversation_history messages =
      (let first_user_msg : Option Msg :=
        match messages.head? with
        | some m => if m.role = Role.user then some m else none
        | none => none
      let recent_messages : List Msg :=
        match first_user_msg with
        | some _ => messages.drop (messages.length - (max_context_messages - 1))
        | none => messages.drop (messages.length - max_context_messages)
      let trimmed_messages : List Msg :=
        match first_user_msg with
        | some fm => if fm ∉ recent_messages then fm :: recent_messages else recent_messages
        | none => recent_messages
      if messages.length - trimmed_messages.length > 5 then
        let removed_messages := messages.take (messages.length - trimmed_messages.length)
        let summary_msg : Msg := ⟨.user, .str (summarize_messages removed_messages)⟩
        if trimmed_messages.length > 3 then
          trimmed_messages.take (trimmed_messages.length - 3) ++
            summary_msg :: trimmed_messages.drop (trimmed_messages.length - 3)
        else summary_msg :: trimmed_messages
      else trimmed_messages) := by
  unfold trim_conversation_history
  rw [if_neg h3]
  simp only []
  rw [if_neg hb]

set_option maxRecDepth 8000 in
/-- C1 counterexample: a 25-message transcript satisfying the pairing
invariant whose only tool pair has long results (so tool-sequence compaction
keeps it) and sits across the trimming cut; `_trim_conversation_history`
keeps the first message plus the 19 most recent ones, dropping the assistant
tool_use message while keeping its tool_result partner, so the compactor
output violates the invariant: trimming does not drop pairs as a unit. -/
theorem c1_counterexample :
    toolPairingOK exC1Transcript = true ∧
    toolPairingOK (trim_conversation_history (compact_tool_sequences exC1Transcript)) = false := by
  constructor
  · decide
  · have hcomp : compact_tool_sequences exC1Transcript = exC1Transcript := by decide
    rw [hcomp, trim_overflow exC1Transcript (by decide)
      (fun hand => absurd hand.2 (by decide))]
    decide

theorem pairedFrom_cons (m x : Msg) (l : List Msg) :
    pairedFrom m (x :: l) = (okAdjacent m x && pairedFrom x l) := rfl

theorem isToolUseAssistant_role {m : Msg} (h : isToolUseAssistant m = true) :
    m.role = Role.assistant := by
  simp only [isToolUseAssistant, Bool.and_eq_true, decide_eq_true_eq] at h
  exact h.1

theorem isToolResultUser_role {m : Msg} (h : isToolResultUser m = true) :
    m.role = Role.user := by
  simp only [isToolResultUser, Bool.and_eq_true, decide_eq_true_eq] at h
  exact h.1

theorem okAdjacent_useIds_nil {m m1 : Msg} (h : okAdjacent m m1 = true)
    (hrole : m1.role = Role.assistant) : toolUseIds m = [] := by
  simp only [okAdjacent, Bool.and_eq_true, Bool.or_eq_true, decide_eq_true_eq] at h
  rcases h.1 with h1 | ⟨h1, _⟩
  · exact h1
  · rw [hrole] at h1
    simp at h1

theorem okAdjacent_resIds_nil {m2 m3 : Msg} (h : okAdjacent m2 m3 = true)
    (hrole : m2.role = Role.user) : toolResultIds m3 = [] := by
  simp only [okAdjacent, Bool.and_eq_true, Bool.or_eq_true, decide_eq_true_eq] at h
  rcases h.2 with h1 | ⟨h1, _⟩
  · exact h1
  · rw [hrole] at h1
    simp at h1

theorem okAdjacent_of_nil {m cm : Msg} (h1 : toolUseIds m = [])
    (h2 : toolResultIds cm = []) : okAdjacent m cm = true := by
  simp [okAdjacent, h1, h2]

theorem compactSummaryMsg_useIds (m : Msg) : toolUseIds (compactSummaryMsg m) = [] := rfl

theorem compactSummaryMsg_resIds (m : Msg) : toolResultIds (compactSummaryMsg m) = [] := rfl

theorem pairedFrom_compactScan : ∀ (l : List Msg) (m : Msg),
    pairedFrom m l = true → pairedFrom m (compactScan l) = true
  | [], _, h => h
  | [_], _, h => h
  | [_, _], _, h => h
  | m1 :: m2 :: m3 :: rest, m, h => by
      rw [pairedFrom_cons, Bool.and_eq_true] at h
      obtain ⟨hadj1, h2⟩ := h
      rw [pairedFrom_cons, Bool.and_eq_true] at h2
      obtain ⟨hadj2, h3⟩ := h2
      rw [pairedFrom_cons, Bool.and_eq_true] at h3
      obtain ⟨hadj3, h4⟩ := h3
      rw [compactScan_cons3]
      by_cases hc : (isPairStart m1 m2 && decide (total_result_length m2 < 500)) = true
      · rw [if_pos hc]
        have hpair : isPairStart m1 m2 = true := by
          rw [Bool.and_eq_true] at hc
          exact hc.1
        have hroles : isToolUseAssistant m1 = true ∧ isToolResultUser m2 = true := by
          rw [isPairStart, Bool.and_eq_true] at hpair
          exact hpair
        have hrole1 : m1.role = Role.assistant := isToolUseAssistant_role hroles.1
        have hrole2 : m2.role = Role.user := isToolResultUser_role hroles.2
        have hm_nil : toolUseIds m = [] := okAdjacent_useIds_nil hadj1 hrole1
        have hm3_res : toolResultIds m3 = [] := okAdjacent_resIds_nil hadj3 hrole2
        rw [pairedFrom_cons, Bool.and_eq_true]
        refine ⟨okAdjacent_of_nil hm_nil (compactSummaryMsg_resIds m1), ?_⟩
        apply pairedFrom_compactScan (m3 :: rest) (compactSummaryMsg m1)
        rw [pairedFrom_cons, Bool.and_eq_true]
        exact ⟨okAdjacent_of_nil (compactSummaryMsg_useIds m1) hm3_res, h4⟩
      · rw [if_neg hc, pairedFrom_cons, Bool.and_eq_true]
        refine ⟨hadj1, ?_⟩
        apply pairedFrom_compactScan (m2 :: m3 :: rest) m1
        rw [pairedFrom_cons, Bool.and_eq_true]
        refine ⟨hadj2, ?_⟩
        rw [pairedFrom_cons, Bool.and_eq_true]
        exact ⟨hadj3, h4⟩

theorem toolPairingOK_eq_ghost (l : List Msg) :
    toolPairingOK l = pairedFrom ⟨Role.user, Content.str ""⟩ l := by
  cases l with
  | nil => rfl
  | cons m rest =>
      rw [pairedFrom_cons]
      show (decide (toolResultIds m = []) && pairedFrom m rest) = _
      simp [okAdjacent, toolUseIds, toolResultIds]

/-- C1 amended: the tool-sequence compaction pass preserves the pairing
invariant (pairs are replaced only as complete units), but — as the
counterexample shows — the history-trimming pass does not: it slices by
count and can keep a tool_result message whose tool_use partner was
dropped, so the claimed "dropped together as a unit" behaviour does not
exist and the invariant does not survive the full compactor. -/
theorem c1_compaction_preserves_pairing (ms : List Msg) (h : toolPairingOK ms = true) :
    toolPairingOK (compact_tool_sequences ms) = true := by
  unfold compact_tool_sequences
  split
  · exact h
  · rw [toolPairingOK_eq_ghost] at h ⊢
    exact pairedFrom_compactScan ms _ h

/-- Witness for C1 amended at a concrete transcript with one short pair. -/
theorem c1_compaction_preserves_pairing_witness :
    toolPairingOK [exAssistantTU, exUserTRShort, exFiller, exFiller] = true ∧
    toolPairingOK (compact_tool_sequences [exAssistantTU, exUserTRShort, exFiller, exFiller]) = true :=
  ⟨by decide, c1_compaction_preserves_pairing _ (by decide)⟩

set_option maxRecDepth 4000 in
theorem system_prompt_length : system_prompt.length = 3136 := by
  rw [system_prompt]
  simp only [String.length_append]
  decide

theorem scanFixed_cons (a : Msg) (l : List Msg) (hl : scanFixed l = true)
    (hhead : ∀ y, l.head? = some y →
      (isPairStart a y && decide (total_result_length y < 500)) = false) :
    scanFixed (a :: l) = true := by
  match l, hl, hhead with
  | [], _, _ => rfl
  | [_], _, _ => rfl
  | y :: z :: rest, hl, hhead => 
      rw [scanFixed_cons3, Bool.and_eq_true]
      exact ⟨by simp [hhead y rfl], hl⟩

theorem scanFixed_tail (x : Msg) (l : List Msg) (h : scanFixed (x :: l) = true) :
    scanFixed l = true := by
  match l, h with
  | [], _ => rfl
  | [_], _ => rfl
  | y :: z :: rest, h => 
      rw [scanFixed_cons3, Bool.and_eq_true] at h
      exact h.2

theorem scanFixed_drop (k : Nat) : ∀ l : List Msg, scanFixed l = true →
    scanFixed (l.drop k) = true := by
  induction k with
  | zero => intro l h; simpa using h
  | succ n ih =>
      intro l h
      cases l with
      | nil => simpa using h
      | cons x xs => rw [List.drop_succ_cons]; exact ih xs (scanFixed_tail x xs h)

theorem compactScan_head (x : Msg) (xs : List Msg) :
    (∃ ys, compactScan (x :: xs) = x :: ys) ∨
    (∃ s ys, compactScan (x :: xs) = ⟨Role.user, Content.str s⟩ :: ys) := by
  match xs with
  | [] => exact Or.inl ⟨[], rfl⟩
  | [y] => exact Or.inl ⟨[y], rfl⟩
  | y :: z :: rest =>
      rw [compactScan_cons3]
      by_cases hc : (isPairStart x y && decide (total_result_length y < 500)) = true
      · rw [if_pos hc]
        exact Or.inr ⟨_, _, rfl⟩
      · rw [if_neg hc]
        exact Or.inl ⟨_, rfl⟩

theorem scanFixed_compactScan : ∀ l : List Msg, scanFixed (compactScan l) = true
  | [] => rfl
  | [_] => rfl
  | [_, _] => rfl
  | m1 :: m2 :: m3 :: rest => by
      rw [compactScan_cons3]
      by_cases hc : (isPairStart m1 m2 && decide (total_result_length m2 < 500)) = true
      · rw [if_pos hc]
        refine scanFixed_cons _ _ (scanFixed_compactScan (m3 :: rest)) ?_
        intro y _
        simp [isPairStart, isToolUseAssistant, compactSummaryMsg]
      · rw [if_neg hc]
        refine scanFixed_cons _ _ (scanFixed_compactScan (m2 :: m3 :: rest)) ?_
        intro y hy
        rcases compactScan_head m2 (m3 :: rest) with ⟨ys, heq⟩ | ⟨str2, ys, heq⟩
        · rw [heq] at hy
          obtain rfl : m2 = y := by simpa using hy
          simpa using hc
        · rw [heq] at hy
          obtain rfl : (⟨Role.user, Content.str str2⟩ : Msg) = y := by simpa using hy
          simp [isPairStart, isToolResultUser]

theorem scanFixed_insert : ∀ (xs ys : List Msg) (m : Msg),
    isToolUseAssistant m = false → isToolResultUser m = false → ys ≠ [] →
    scanFixed (xs ++ ys) = true → scanFixed (xs ++ m :: ys) = true
  | [], ys, m, hA, _, _, h => by
      simp only [List.nil_append] at h ⊢
      refine scanFixed_cons m ys h ?_
      intro y _
      simp [isPairStart, hA]
  | [x], ys, m, hA, hR, hys, h => by
      simp only [List.cons_append, List.nil_append] at h ⊢
      have hys2 : scanFixed ys = true := scanFixed_tail x ys h
      have hmys : scanFixed (m :: ys) = true :=
        scanFixed_cons m ys hys2 (by intro y _; simp [isPairStart, hA])
      refine scanFixed_cons x (m :: ys) hmys ?_
      intro y hy
      obtain rfl : m = y := by simpa using hy
      simp [isPairStart, hR]
  | x1 :: x2 :: xs, ys, m, hA, hR, hys, h => by
      obtain ⟨z, w, hzw⟩ : ∃ z w, xs ++ ys = z :: w := by
        cases hxy : xs ++ ys with
        | nil => exact absurd (List.append_eq_nil.mp hxy).2 hys
        | cons z w => exact ⟨z, w, rfl⟩
      rw [List.cons_append, List.cons_append, hzw, scanFixed_cons3, Bool.and_eq_true] at h
      obtain ⟨hcheck, hrest⟩ := h
      have hrest2 : scanFixed ((x2 :: xs) ++ ys) = true := by
        rw [List.cons_append, hzw]
        exact hrest
      have hrec : scanFixed ((x2 :: xs) ++ m :: ys) = true :=
        scanFixed_insert (x2 :: xs) ys m hA hR hys hrest2
      obtain ⟨z2, w2, hzw2⟩ : ∃ z2 w2, xs ++ m :: ys = z2 :: w2 := by
        cases xs with
        | nil => exact ⟨m, ys, rfl⟩
        | cons a b => exact ⟨a, b ++ m :: ys, rfl⟩
      rw [List.cons_append, List.cons_append, hzw2, scanFixed_cons3, Bool.and_eq_true]
      refine ⟨hcheck, ?_⟩
      rw [← hzw2]
      rw [List.cons_append] at hrec
      exact hrec

theorem scanFixed_trim (ms : List Msg) (h : scanFixed ms = true) :
    scanFixed (trim_conversation_history ms) = true := by
  by_cases h3 : ms.length ≤ 3
  · rw [trim_id_small ms h3]
    exact h
  · by_cases hb : total_estimated_tokens ms ≤ max_tokens_estimate ∧
        ms.length ≤ max_context_messages
    · rw [trim_id_of_budget ms hb]
      exact h
    · rw [trim_overflow ms h3 hb]
      simp only []
      obtain ⟨m0, rest, rfl⟩ : ∃ m0 rest, ms = m0 :: rest := by
        cases ms with
        | nil => simp at h3
        | cons a b => exact ⟨a, b, rfl⟩
      simp only [List.head?_cons]
      have huserStrA : ∀ s : String, isToolUseAssistant ⟨Role.user, Content.str s⟩ = false := by
        intro s
        simp [isToolUseAssistant]
      have huserStrR : ∀ s : String, isToolResultUser ⟨Role.user, Content.str s⟩ = false := by
        intro s
        simp [isToolResultUser]
      by_cases hrole : m0.role = Role.user
      · rw [if_pos hrole]
        simp only []
        set recent := (m0 :: rest).drop ((m0 :: rest).length - (max_context_messages - 1)) with hrecent
        have hrec : scanFixed recent = true := scanFixed_drop _ _ h
        set trimmed := if m0 ∉ recent then m0 :: recent else recent with htrimmed
        have htrim : scanFixed trimmed = true := by
          rw [htrimmed]
          split
          · refine scanFixed_cons m0 recent hrec ?_
            intro y _
            simp [isPairStart, isToolUseAssistant, hrole]
          · exact hrec
        split
        · split
          · next hlen3 =>
              refine scanFixed_insert _ _ _ (huserStrA _) (huserStrR _) ?_ ?_
              · intro hnil
                have := congrArg List.length hnil
                simp only [List.length_drop, List.length_nil] at this
                omega
              · rw [List.take_append_drop]
                exact htrim
          · refine scanFixed_cons _ _ htrim ?_
            intro y _
            simp [isPairStart, isToolUseAssistant]
        · exact htrim
      · rw [if_neg hrole]
        simp only []
        set recent := (m0 :: rest).drop ((m0 :: rest).length - max_context_messages) with hrecent
        have hrec : scanFixed recent = true := scanFixed_drop _ _ h
        split
        · split
          · next hlen3 =>
              refine scanFixed_insert _ _ _ (huserStrA _) (huserStrR _) ?_ ?_
              · intro hnil
                have := congrArg List.length hnil
                simp only [List.length_drop, List.length_nil] at this
                omega
              · rw [List.take_append_drop]
                exact hrec
          · refine scanFixed_cons _ _ hrec ?_
            intro y _
            simp [isPairStart, isToolUseAssistant]
        · exact hrec

theorem compact_eq_self_of (ms : List Msg)
    (h : scanFixed ms = true ∨ ms.length < 4) :
    compact_tool_sequences ms = ms := by
  unfold compact_tool_sequences
  split
  · rfl
  · next hlen =>
      rcases h with h | h
      · exact compactScan_eq_self ms h
      · exact absurd h hlen

/-- C4: the context compactor is idempotent on compacted in-budget
transcripts — if `x` is the result of one tool-sequence-compaction plus
trimming pass and `x` is within the token estimate and message-count
budget, then running both passes again returns `x` unchanged. -/
theorem c4_compactor_idempotent (t : List Msg)
    (hb : total_estimated_tokens (trim_conversation_history (compact_tool_sequences t)) ≤
        max_tokens_estimate ∧
      (trim_conversation_history (compact_tool_sequences t)).length ≤ max_context_messages) :
    trim_conversation_history (compact_tool_sequences
        (trim_conversation_history (compact_tool_sequences t))) =
      trim_conversation_history (compact_tool_sequences t) := by
  have hx : scanFixed (trim_conversation_history (compact_tool_sequences t)) = true ∨
      (trim_conversation_history (compact_tool_sequences t)).length < 4 := by
    by_cases hlen : t.length < 4
    · have hco : compact_tool_sequences t = t := by
        unfold compact_tool_sequences
        rw [if_pos hlen]
      rw [hco, trim_id_small t (by omega)]
      exact Or.inr hlen
    · have hco : compact_tool_sequences t = compactScan t := by
        unfold compact_tool_sequences
        rw [if_neg hlen]
      rw [hco]
      exact Or.inl (scanFixed_trim _ (scanFixed_compactScan t))
  rw [compact_eq_self_of _ hx, trim_id_of_budget _ hb]

set_option maxRecDepth 4000 in
/-- Witness for C4 at a concrete transcript containing one compactible tool
turn. -/
theorem c4_compactor_idempotent_witness :
    trim_conversation_history (compact_tool_sequences
        (trim_conversation_history (compact_tool_sequences
          [exFiller, exAssistantTU, exUserTRShort, exFiller, exFiller]))) =
      trim_conversation_history (compact_tool_sequences
        [exFiller, exAssistantTU, exUserTRShort, exFiller, exFiller]) :=
  c4_compactor_idempotent [exFiller, exAssistantTU, exUserTRShort, exFiller, exFiller]
    (by
      have hco : compact_tool_sequences
          [exFiller, exAssistantTU, exUserTRShort, exFiller, exFiller] =
          [exFiller, compactSummaryMsg exAssistantTU, exFiller, exFiller] := by decide
      have htokens : total_estimated_tokens
          [exFiller, compactSummaryMsg exAssistantTU, exFiller, exFiller] ≤
          max_tokens_estimate := by
        simp only [total_estimated_tokens, system_prompt_length]
        decide
      have htr : trim_conversation_history (compact_tool_sequences
          [exFiller, exAssistantTU, exUserTRShort, exFiller, exFiller]) =
          [exFiller, compactSummaryMsg exAssistantTU, exFiller, exFiller] := by
        rw [hco]
        exact trim_id_of_budget _ ⟨htokens, by decide⟩
      rw [htr]
      exact ⟨htokens, by decide⟩)

theorem msgImageBlocks_userStr (str0 : String) :
    msgImageBlocks ⟨Role.user, Content.str str0⟩ = [] := rfl

theorem msgImageBlocks_compactSummaryMsg (m : Msg) :
    msgImageBlocks (compactSummaryMsg m) = [] := rfl

theorem compactScan_noImg : ∀ l : List Msg, (∀ m ∈ l, msgImageBlocks m = []) →
    ∀ m ∈ compactScan l, msgImageBlocks m = []
  | [], h => h
  | [_], h => h
  | [_, _], h => h
  | m1 :: m2 :: m3 :: rest, h => by
      rw [compactScan_cons3]
      split
      · intro m hm
        rcases List.mem_cons.mp hm with rfl | hm
        · rfl
        · exact compactScan_noImg (m3 :: rest)
            (fun x hx => h x (by simp [List.mem_cons] at hx ⊢; tauto)) m hm
      · intro m hm
        rcases List.mem_cons.mp hm with rfl | hm
        · exact h m (by simp)
        · exact compactScan_noImg (m2 :: m3 :: rest)
            (fun x hx => h x (by simp [List.mem_cons] at hx ⊢; tauto)) m hm

theorem compact_inv (m0 : Msg) (rest : List Msg) (hrole : m0.role = Role.user)
    (h : ∀ m ∈ rest, msgImageBlocks m = []) :
    ∃ rest2, compact_tool_sequences (m0 :: rest) = m0 :: rest2 ∧
      ∀ m ∈ rest2, msgImageBlocks m = [] := by
  unfold compact_tool_sequences
  split
  · exact ⟨rest, rfl, h⟩
  · match rest, h with
    | [], h => exact ⟨[], rfl, h⟩
    | [x], h => exact ⟨[x], rfl, h⟩
    | m2 :: m3 :: rest2, h =>
        rw [compactScan_cons3, if_neg (by simp [isPairStart, isToolUseAssistant, hrole])]
        exact ⟨compactScan (m2 :: m3 :: rest2), rfl, compactScan_noImg _ h⟩

theorem trim_inv (m0 : Msg) (rest : List Msg) (hrole : m0.role = Role.user)
    (himg0 : msgImageBlocks m0 ≠ []) (h : ∀ m ∈ rest, msgImageBlocks m = []) :
    ∃ rest2, trim_conversation_history (m0 :: rest) = m0 :: rest2 ∧
      ∀ m ∈ rest2, msgImageBlocks m = [] := by
  by_cases h3 : (m0 :: rest).length ≤ 3
  · exact ⟨rest, trim_id_small _ h3, h⟩
  · by_cases hb : total_estimated_tokens (m0 :: rest) ≤ max_tokens_estimate ∧
        (m0 :: rest).length ≤ max_context_messages
    · exact ⟨rest, trim_id_of_budget _ hb, h⟩
    · rw [trim_overflow _ h3 hb]
      simp only [List.head?_cons]
      rw [if_pos hrole]
      simp only []
      by_cases hK0 : (m0 :: rest).length - (max_context_messages - 1) = 0
      · rw [hK0, List.drop_zero,
          if_neg (by simp : ¬ (m0 ∉ m0 :: rest)),
          if_neg (by simp : ¬ (m0 :: rest).length - (m0 :: rest).length > 5)]
        exact ⟨rest, rfl, h⟩
      · obtain ⟨K2, hK2⟩ : ∃ K2, (m0 :: rest).length - (max_context_messages - 1) = K2 + 1 :=
          ⟨(m0 :: rest).length - (max_context_messages - 1) - 1, by omega⟩
        rw [hK2, List.drop_succ_cons]
        have hrecset : ∀ m ∈ rest.drop K2, msgImageBlocks m = [] :=
          fun m hm => h m (List.drop_subset _ _ hm)
        have hm0notin : m0 ∉ rest.drop K2 := fun hmem => himg0 (hrecset m0 hmem)
        rw [if_pos hm0notin]
        by_cases hdrop : (m0 :: rest).length - (m0 :: rest.drop K2).length > 5
        · rw [if_pos hdrop]
          have hlen4 : (m0 :: rest.drop K2).length > 3 := by
            simp only [List.length_cons, List.length_drop] at hK2 ⊢
            simp only [List.length_cons, not_le] at h3
            unfold max_context_messages at hK2
            omega
          rw [if_pos hlen4]
          obtain ⟨j, hj⟩ : ∃ j, (m0 :: rest.drop K2).length - 3 = j + 1 :=
            ⟨(m0 :: rest.drop K2).length - 4, by
              simp only [List.length_cons] at hlen4 ⊢
              omega⟩
          rw [hj, List.take_succ_cons, List.drop_succ_cons]
          refine ⟨_, rfl, ?_⟩
          intro m hm
          rcases List.mem_append.mp hm with hm | hm
          · exact hrecset m (List.take_subset _ _ hm)
          · rcases List.mem_cons.mp hm with rfl | hm
            · rfl
            · exact hrecset m (List.drop_subset _ _ hm)
        · rw [if_neg hdrop]
          exact ⟨_, rfl, hrecset⟩

theorem assistantContent_noImg (rs : List RespBlock) :
    msgImageBlocks ⟨Role.assistant, Content.blocks (assistantContentOf rs)⟩ = [] := by
  simp only [msgImageBlocks]
  rw [List.filter_eq_nil_iff]
  intro b hb
  obtain ⟨r, _, rfl⟩ := List.mem_map.mp hb
  cases r <;> simp

theorem toolResults_noImg (exec : String → String → String) (rs : List RespBlock) :
    msgImageBlocks ⟨Role.user, Content.blocks (toolResultsOf exec rs)⟩ = [] := by
  simp only [msgImageBlocks]
  rw [List.filter_eq_nil_iff]
  intro b hb
  obtain ⟨r, _, hr⟩ := List.mem_filterMap.mp hb
  cases r with
  | text t => simp at hr
  | toolUse id n inp =>
      simp only [Option.some.injEq] at hr
      rw [← hr]
      simp

theorem append_inv (exec : String → String → String) (rs : List RespBlock)
    (m0 : Msg) (rest : List Msg) (h : ∀ m ∈ rest, msgImageBlocks m = []) :
    ∃ rest2, appendToolTurn exec rs (m0 :: rest) = m0 :: rest2 ∧
      ∀ m ∈ rest2, msgImageBlocks m = [] := by
  unfold appendToolTurn
  simp only [List.cons_append]
  split
  · refine ⟨_, rfl, ?_⟩
    intro m hm
    rcases List.mem_append.mp hm with hm | hm
    · exact h m hm
    · rcases List.mem_singleton.mp hm with rfl
      exact assistantContent_noImg rs
  · refine ⟨_, rfl, ?_⟩
    intro m hm
    rcases List.mem_append.mp hm with hm | hm
    · rcases List.mem_append.mp hm with hm | hm
      · exact h m hm
      · rcases List.mem_singleton.mp hm with rfl
        exact assistantContent_noImg rs
    · rcases List.mem_singleton.mp hm with rfl
      exact toolResults_noImg exec rs

theorem transcriptAt_zero (input : String) (images : List Image) (himg : images ≠ [])
    (resp : Nat → List RespBlock) (exec : String → String → String) :
    transcriptAt resp exec input images 0 =
      [⟨Role.user, Content.blocks (Block.text input :: imageBlocksOf images)⟩] := by
  show addImagesToConversation images [⟨Role.user, Content.str input⟩] = _
  unfold addImagesToConversation
  rw [if_neg (by simp [himg])]
  rfl

theorem transcriptAt_succ (resp : Nat → List RespBlock) (exec : String → String → String)
    (input : String) (images : List Image) (k : Nat) :
    transcriptAt resp exec input images (k + 1) =
      (let ms1 := trim_conversation_history
          (compact_tool_sequences (transcriptAt resp exec input images k));
       if hasToolCalls (resp k) then appendToolTurn exec (resp k) ms1 else ms1) := rfl

theorem msgImageBlocks_initial (input : String) (images : List Image) :
    msgImageBlocks ⟨Role.user, Content.blocks (Block.text input :: imageBlocksOf images)⟩ =
      imageBlocksOf images := by
  simp only [msgImageBlocks, imageBlocksOf, List.filter_cons]
  rw [if_neg (by simp)]
  rw [List.filter_eq_self]
  intro b hb
  obtain ⟨im, _, rfl⟩ := List.mem_map.mp hb
  rfl

theorem msgImageBlocks_initial_ne (input : String) (images : List Image)
    (himg : images ≠ []) :
    msgImageBlocks ⟨Role.user, Content.blocks (Block.text input :: imageBlocksOf images)⟩
      ≠ [] := by
  rw [msgImageBlocks_initial]
  simp [imageBlocksOf, himg]

theorem transcriptAt_inv (input : String) (images : List Image) (himg : images ≠ [])
    (resp : Nat → List RespBlock) (exec : String → String → String) (k : Nat) :
    ∃ rest, transcriptAt resp exec input images k =
        ⟨Role.user, Content.blocks (Block.text input :: imageBlocksOf images)⟩ :: rest ∧
      ∀ m ∈ rest, msgImageBlocks m = [] := by
  have hrole : (⟨Role.user, Content.blocks (Block.text input :: imageBlocksOf images)⟩ :
      Msg).role = Role.user := rfl
  have himg0 := msgImageBlocks_initial_ne input images himg
  induction k with
  | zero =>
      refine ⟨[], ?_, by simp⟩
      exact transcriptAt_zero input images himg resp exec
  | succ n ih =>
      obtain ⟨rest, hrest, hclean⟩ := ih
      rw [transcriptAt_succ]
      simp only []
      rw [hrest]
      obtain ⟨rest2, hc, hclean2⟩ := compact_inv _ rest hrole hclean
      rw [hc]
      obtain ⟨rest3, ht, hclean3⟩ := trim_inv _ rest2 hrole himg0 hclean2
      rw [ht]
      by_cases htc : hasToolCalls (resp n) = true
      · rw [if_pos htc]
        obtain ⟨rest4, ha, hclean4⟩ := append_inv exec (resp n) _ rest3 hclean3
        rw [ha]
        exact ⟨rest4, rfl, hclean4⟩
      · rw [if_neg htc]
        exact ⟨rest3, rfl, hclean3⟩

theorem transcriptImageBlocks_of_inv (m0 : Msg) (rest : List Msg)
    (h : ∀ m ∈ rest, msgImageBlocks m = []) :
    transcriptImageBlocks (m0 :: rest) = msgImageBlocks m0 := by
  simp only [transcriptImageBlocks, List.map_cons, List.flatten_cons]
  have hnil : (rest.map msgImageBlocks).flatten = [] := by
    rw [List.flatten_eq_nil_iff]
    intro l hl
    obtain ⟨m, hm, rfl⟩ := List.mem_map.mp hl
    exact h m hm
  rw [hnil, List.append_nil]

/-- **C5** (images appear exactly once): when a non-empty image list is
supplied, iteration 0 starts from the single user message carrying the text
block followed by one image block per image; at every later iteration the
transcript — before the model call, after compaction, and after trimming —
contains exactly those image blocks, in order, and no others: neither the
compactor, nor the trimmer, nor the tool-turn appender ever duplicates or
drops an image block. -/
theorem c5_images_exactly_once (input : String) (images : List Image)
    (himg : images ≠ []) (resp : Nat → List RespBlock)
    (exec : String → String → String) (k : Nat) :
    transcriptAt resp exec input images 0 =
      [⟨Role.user, Content.blocks (Block.text input :: imageBlocksOf images)⟩] ∧
    transcriptImageBlocks (transcriptAt resp exec input images k) = imageBlocksOf images ∧
    transcriptImageBlocks (compact_tool_sequences (transcriptAt resp exec input images k)) =
      imageBlocksOf images ∧
    transcriptImageBlocks (trim_conversation_history (compact_tool_sequences
      (transcriptAt resp exec input images k))) = imageBlocksOf images := by
  have hrole : (⟨Role.user, Content.blocks (Block.text input :: imageBlocksOf images)⟩ :
      Msg).role = Role.user := rfl
  have himg0 := msgImageBlocks_initial_ne input images himg
  obtain ⟨rest, hrest, hclean⟩ := transcriptAt_inv input images himg resp exec k
  obtain ⟨rest2, hc, hclean2⟩ := compact_inv _ rest hrole hclean
  obtain ⟨rest3, ht, hclean3⟩ := trim_inv _ rest2 hrole himg0 hclean2
  refine ⟨transcriptAt_zero input images himg resp exec, ?_, ?_, ?_⟩
  · rw [hrest, transcriptImageBlocks_of_inv _ _ hclean, msgImageBlocks_initial]
  · rw [hrest, hc, transcriptImageBlocks_of_inv _ _ hclean2, msgImageBlocks_initial]
  · rw [hrest, hc, ht, transcriptImageBlocks_of_inv _ _ hclean3, msgImageBlocks_initial]

/-- Witness for C5: a concrete run ("hi" with one png image, a model that
answers without tool calls) reaches iteration 1 with exactly the one image
block in the transcript. -/
theorem c5_images_exactly_once_witness :
    ([⟨"image/png", "AAA"⟩] : List Image) ≠ [] ∧
    transcriptImageBlocks
        (transcriptAt (fun _ => []) (fun _ _ => "") "hi" [⟨"image/png", "AAA"⟩] 1) =
      imageBlocksOf [⟨"image/png", "AAA"⟩] :=
  ⟨List.cons_ne_nil _ _,
    (c5_images_exactly_once "hi" [⟨"image/png", "AAA"⟩] (List.cons_ne_nil _ _)
      (fun _ => []) (fun _ _ => "") 1).2.1⟩

end AgentBeats
